import Mathlib

/-!
# Verification of the PhoneQA JSON → database importer

Shallow embedding of `JSON_DB_Importer.py`: the batched reference
resolvers (`get_or_create_agent`, `get_or_create_quality_points`), the
per-document import transaction (`process_individual_json`,
`process_combined_json`), and the batch driver loop (`process_folder`),
together with document discovery and the dated-folder scan
(`find_latest_week_folder`).

The database is a record of row lists; surrogate keys are issued from a
counter.  Each SQL statement execution is preceded by a `useFuel` step so
that a failure (connectivity loss, constraint violation, …) can be
injected at any point of the transaction; an injected race on the Agents
table models a concurrent batch inserting the same extension between the
resolver's lookup and its insert.  Exceptions are modelled by `Except`,
and the driver's per-file `try/except` with `conn.rollback()` is the
branch that discards the uncommitted transaction state and keeps the
committed database unchanged.
-/

namespace Importer

/-- The `PROCESSED_PREFIX` from the source: success marker. -/
def STORED_MARKER : String := "Stored-"

/-- The `FAILED_PREFIX` from the source: failure marker. -/
def BADDATA_MARKER : String := "BadData-"

/-- The `COMBINED_REPORT_FILENAME` from the source. -/
def COMBINED_REPORT_FILENAME : String := "Combined_Analysis_Report.json"

/-- Python's `str.startswith`, on character lists. -/
def startsWithS (s pre : String) : Bool := pre.data.isPrefixOf s.data

/-- Python's `str.endswith`, on character lists. -/
def endsWithS (s suf : String) : Bool := suf.data.isSuffixOf s.data

/-- Python's substring containment `pat in s`, on character lists. -/
def infixOf (pat : List Char) : List Char → Bool
  | [] => pat.isPrefixOf []
  | c :: rest => pat.isPrefixOf (c :: rest) || infixOf pat rest

/-- Python's `pat in s` for strings. -/
def infixS (pat s : String) : Bool := infixOf pat.data s.data

/-- The whitespace characters `str.strip()` removes (ASCII range). -/
def isPySpace (c : Char) : Bool :=
  c = ' ' || c = '\t' || c = '\n' || c = '\r' || c = '\x0b' || c = '\x0c'

/-- Python's `str.strip()` (leading and trailing whitespace removed). -/
def strip (s : String) : String :=
  String.mk (((s.data.dropWhile isPySpace).reverse.dropWhile isPySpace).reverse)

/-- ASCII uppercase of one character (`str.upper` on the ASCII range,
which covers the fixed marker token). -/
def upperChar (c : Char) : Char :=
  if 97 ≤ c.toNat ∧ c.toNat ≤ 122 then Char.ofNat (c.toNat - 32) else c

/-- The `text.upper()` (ASCII). -/
def upperS (s : String) : String := String.mk (s.data.map upperChar)

/-- Python's `str.replace` on character lists, fuel-indexed (the fuel
is the subject length, enough for every step; the source only calls it
with a non-empty pattern). -/
def replaceAllAux (pat rep : List Char) : Nat → List Char → List Char
  | 0, s => s
  | _ + 1, [] => []
  | n + 1, c :: rest =>
    if pat.isPrefixOf (c :: rest) && !pat.isEmpty then
      rep ++ replaceAllAux pat rep n ((c :: rest).drop pat.length)
    else c :: replaceAllAux pat rep n rest

/-- Python's `s.replace(pat, rep)` for strings. -/
def replaceS (s pat rep : String) : String :=
  String.mk (replaceAllAux pat.data rep.data s.data.length s.data)

/-- Association-list lookup modelling a Python `dict.get` (our maps are
built with distinct keys, so first-match lookup agrees with dict
semantics). -/
def lookupA (m : List (String × Nat)) (k : String) : Option Nat :=
  match m with
  | [] => none
  | (k', v) :: rest => if k' = k then some v else lookupA rest k

/-- Python truthiness of `qp_map.get(...)`: `None` and `0` are falsy. -/
def qpTruthy (o : Option Nat) : Bool := o.getD 0 != 0

/-- The `os.path.basename`: the component after the last (forward or
backward) path separator. -/
def basename (p : String) : String :=
  String.mk (p.data.foldl (fun acc c => if c = '/' ∨ c = '\\' then [] else acc ++ [c]) [])

/-!
## Document discovery (Batch Driver, line 217)

`process_folder` keeps a walked file name when it looks like a report
(`_analysis.json` suffix or the combined-report name inside it) and does
not already carry either terminal marker prefix.
-/

/-- The discovery filter of `process_folder` (source line 217), applied
to the file names of a directory listing. -/
def discover (dir : List String) : List String :=
  dir.filter (fun f =>
    (endsWithS f "_analysis.json" || infixS COMBINED_REPORT_FILENAME f)
      && !(startsWithS f STORED_MARKER || startsWithS f BADDATA_MARKER))

/-- The File-State Machine's success rename: prepend the success marker. -/
def markStored (base : String) : String := STORED_MARKER ++ base

/-- The File-State Machine's failure rename: prepend the failure marker. -/
def markBadData (base : String) : String := BADDATA_MARKER ++ base

/-!
## Store data model

One row type per table touched by the importer; a single issuing counter
`nextId` stands for the store's identity columns (each table sees a
strictly increasing sequence of fresh keys, which is all the code relies
on).  Timestamps are abstract ticks (`Nat`).
-/

/-- A row of the `Agents` table. -/
structure AgentRow where
  agentId : Nat
  agentName : String
  emailAddress : Option String
  extension : String
  deriving DecidableEq, Repr

/-- A row of the `QualityPointsMaster` table. -/
structure QPRow where
  qpId : Nat
  text : String
  isBonus : Bool
  deriving DecidableEq, Repr

/-- A row of the `IndividualCallAnalyses` table. -/
structure IndRow where
  analysisId : Nat
  agentId : Nat
  techDispatcherNameRaw : Option String
  originalAudioFileName : String
  callDuration : Option String
  clientName : Option String
  clientFacilityCompany : Option String
  ticketNumber : Option String
  clientCallbackNumber : Option String
  ticketStatusType : Option String
  callSubjectSummary : Option String
  remarksPositive : Option String
  remarksNegative : Option String
  remarksCoaching : Option String
  processingDateTime : Nat
  deriving DecidableEq, Repr

/-- A row of the `IndividualEvaluationItems` table. -/
structure EvalRow where
  analysisId : Nat
  qpId : Nat
  finding : Option String
  explanationSnippets : Option String
  deriving DecidableEq, Repr

/-- A row of the `CombinedAnalyses` table. -/
structure CombRow where
  combinedId : Nat
  agentId : Nat
  analysisPeriodNote : Option String
  numberOfReportsProvided : Option Int
  numberOfReportsSuccessfullyAnalyzed : Option Int
  snapshotTotalCalls : Option Int
  snapshotPositive : Option Int
  snapshotNegative : Option Int
  snapshotNeutral : Option Int
  processingDateTime : Nat
  deriving DecidableEq, Repr

/-- A row of the `CombinedAnalysisStrengths` table. -/
structure StrengthRow where
  combinedId : Nat
  strengthText : String
  deriving DecidableEq, Repr

/-- A row of the `CombinedAnalysisDevelopmentAreas` table. -/
structure DevAreaRow where
  combinedId : Nat
  devAreaText : String
  deriving DecidableEq, Repr

/-- A row of the `CombinedAnalysisCoachingFocus` table. -/
structure FocusRow where
  focusId : Nat
  combinedId : Nat
  areaText : String
  deriving DecidableEq, Repr

/-- A row of the `CombinedAnalysisCoachingActions` table. -/
structure ActionRow where
  focusId : Nat
  actionText : String
  deriving DecidableEq, Repr

/-- A row of the `CombinedAnalysisQualityPointDetails` table. -/
structure QPDetailRow where
  combinedId : Nat
  qpId : Nat
  findingsPositive : Option Int
  findingsNegative : Option Int
  findingsNeutral : Option Int
  trendObservation : Option String
  deriving DecidableEq, Repr

/-- The relational store. -/
structure DB where
  agents : List AgentRow
  qpm : List QPRow
  indAnalyses : List IndRow
  evalItems : List EvalRow
  combined : List CombRow
  strengths : List StrengthRow
  devAreas : List DevAreaRow
  focus : List FocusRow
  actions : List ActionRow
  qpDetails : List QPDetailRow
  nextId : Nat
  deriving DecidableEq, Repr

/-- The empty store; identity counters start at 1 as in SQL Server. -/
def emptyDB : DB := ⟨[], [], [], [], [], [], [], [], [], [], 1⟩

/-!
## Parsed JSON documents

One record mirrors the single Python dict handed around by
`process_folder`: the individual- and combined-shape fields live side by
side, each read with `dict.get` and a default, exactly as in the source.
-/

/-- The `call_summary` sub-object of an individual analysis. -/
structure CallSummary where
  tech_dispatcher_name : Option String := none
  call_duration : Option String := none
  client_name : Option String := none
  client_facility_company : Option String := none
  ticket_number : Option String := none
  client_callback_number : Option String := none
  ticket_status_type : Option String := none
  call_subject_summary : Option String := none
  deriving DecidableEq, Repr

/-- The `concluding_remarks` sub-object of an individual analysis. -/
structure ConcludingRemarks where
  summary_positive_findings : Option String := none
  summary_negative_findings : Option String := none
  coaching_plan_for_growth : Option String := none
  deriving DecidableEq, Repr

/-- One entry of `detailed_evaluation`. -/
structure EvalItem where
  quality_point : Option String := none
  finding : Option String := none
  explanation_snippets : Option String := none
  deriving DecidableEq, Repr

/-- The `report_header` sub-object of a combined analysis. -/
structure ReportHeader where
  analysis_period_note : Option String := none
  number_of_reports_provided : Option Int := none
  number_of_reports_successfully_analyzed : Option Int := none
  deriving DecidableEq, Repr

/-- The `aggregate_findings_counts` / `findings_summary` count triples. -/
structure FindingsCounts where
  positive_count : Option Int := none
  negative_count : Option Int := none
  neutral_count : Option Int := none
  deriving DecidableEq, Repr

/-- The `overall_performance_snapshot` sub-object of a combined analysis. -/
structure Snapshot where
  total_calls_contributing_to_aggregates : Option Int := none
  aggregate_findings_counts : Option FindingsCounts := none
  deriving DecidableEq, Repr

/-- One entry of `consolidated_coaching_focus`. -/
structure CoachingFocusItem where
  area : Option String := none
  specific_actions : List String := []
  deriving DecidableEq, Repr

/-- The `qualitative_summary_and_coaching_plan` sub-object. -/
structure QualSummary where
  overall_strengths_observed : List String := []
  overall_areas_for_development : List String := []
  consolidated_coaching_focus : List CoachingFocusItem := []
  deriving DecidableEq, Repr

/-- One entry of `detailed_quality_point_analysis`. -/
structure QPDetailItem where
  quality_point : Option String := none
  findings_summary : Option FindingsCounts := none
  trend_observation : Option String := none
  deriving DecidableEq, Repr

/-- The parsed top-level JSON object of a document. -/
structure JsonDoc where
  call_summary : Option CallSummary := none
  concluding_remarks : Option ConcludingRemarks := none
  detailed_evaluation : List EvalItem := []
  report_header : Option ReportHeader := none
  overall_performance_snapshot : Option Snapshot := none
  qualitative_summary_and_coaching_plan : Option QualSummary := none
  detailed_quality_point_analysis : List QPDetailItem := []
  deriving DecidableEq, Repr

/-!
## Transaction state and failure injection

`Tx` carries the store as visible inside the open transaction, an
optional countdown injecting a failure at the n-th SQL statement, and
the number of `SELECT AgentID FROM Agents WHERE Extension = ?` lookups
issued so far (to settle the retry question of C3).  An exception
aborts the computation carrying the dirty state (`Except Tx _`); the
driver's `conn.rollback()` then discards it.
-/

/-- In-transaction state. -/
structure Tx where
  db : DB
  fuel : Option Nat
  agentLookups : Nat
  deriving DecidableEq, Repr

/-- One SQL statement execution: fails when the injected countdown hits
zero (the raised exception carries the dirty transaction state). -/
def useFuel (t : Tx) : Except Tx Tx :=
  match t.fuel with
  | none => .ok t
  | some 0 => .error t
  | some (n + 1) => .ok { t with fuel := some n }

/-- The `SELECT AgentID FROM Agents WHERE Extension = ?`: first matching row. -/
def findAgent (db : DB) (ext : String) : Option AgentRow :=
  db.agents.find? (fun a => a.extension = ext)

/-- The `SELECT ... FROM QualityPointsMaster WHERE QualityPointText = ?`
(the `IN (...)` lookup restricted to one text). -/
def findQP (db : DB) (text : String) : Option QPRow :=
  db.qpm.find? (fun r => r.text = text)

/-- The bonus-flag expression of the source:
`1 if "[BONUS]" in text.upper() else 0`. -/
def hasBonusMarker (text : String) : Bool :=
  infixS "[BONUS]" (upperS text)

/-!
## Reference Resolver
-/

/-- The name/email/extension triple handed to agent resolution
(`ext_map` entry or the synthesized un-rostered default). -/
structure AgentDetails where
  full_name : String
  email : Option String
  extension : String
  deriving DecidableEq, Repr

/-- The `ext_map.get(extension)` (dictionary lookup). -/
def lookupDetails (m : List (String × AgentDetails)) (k : String) : Option AgentDetails :=
  match m with
  | [] => none
  | (k', v) :: rest => if k' = k then some v else lookupDetails rest k

/-- The `get_or_create_agent` (source lines 125–137).  `race` injects a row
committed by a concurrent batch between our lookup and our insert; the
insert then hits the uniqueness constraint on `Extension` and raises.
The `Option Nat` result is `None` when the details lack a (truthy) name
or extension, as in the source's early `return None`. -/
def get_or_create_agent (race : Option AgentRow) (t : Tx) (details : AgentDetails) :
    Except Tx (Option Nat × Tx) :=
  if details.full_name = "" ∨ details.extension = "" then .ok (none, t)
  else do
    let t ← useFuel t
    let t := { t with agentLookups := t.agentLookups + 1 }
    match findAgent t.db details.extension with
    | some row => .ok (some row.agentId, t)
    | none => do
      let t := match race with
        | some r => { t with db := { t.db with agents := t.db.agents ++ [r] } }
        | none => t
      let t ← useFuel t
      if t.db.agents.any (fun a => a.extension = details.extension) then
        .error t
      else
        let id := t.db.nextId
        .ok (some id,
          { t with db := { t.db with
              agents := t.db.agents ++ [⟨id, details.full_name, details.email, details.extension⟩],
              nextId := t.db.nextId + 1 } })

/-- The sanitizing set comprehension of `get_or_create_quality_points`:
`{text.strip() for text in qp_texts if text}`. -/
def sanitize (qp_texts : List String) : List String :=
  ((qp_texts.filter (fun s => s ≠ "")).map strip).dedup

/-- The `INSERT INTO QualityPointsMaster (QualityPointText, IsBonus)`
batch: one new row per unseen label, bonus flag from the marker test. -/
def insertQPs (db : DB) (texts : List String) : DB :=
  texts.foldl (fun d s =>
    { d with qpm := d.qpm ++ [⟨d.nextId, s, hasBonusMarker s⟩], nextId := d.nextId + 1 }) db

/-- The `SELECT QualityPointText, QualityPointID ... WHERE ... IN`
result as a text → key map, restricted to the sanitized labels. -/
def selectQPMap (db : DB) (sanitized : List String) : List (String × Nat) :=
  sanitized.filterMap (fun s => (findQP db s).map (fun r => (s, r.qpId)))

/-- The returned mapping of `get_or_create_quality_points`:
`{orig: qp_map.get(orig.strip()) for orig in qp_texts if orig.strip() in qp_map}`
— keyed by the ORIGINAL (untrimmed) labels. -/
def buildQPReturn (qp_texts : List String) (m : List (String × Nat)) : List (String × Nat) :=
  qp_texts.filterMap (fun orig => (lookupA m (strip orig)).map (fun v => (orig, v)))

/-- The `get_or_create_quality_points` (source lines 139–159): sanitize,
one batched lookup, insert the unseen labels, re-lookup, and return the
original-label-keyed mapping. -/
def get_or_create_quality_points (t : Tx) (qp_texts : List String) :
    Except Tx (List (String × Nat) × Tx) :=
  let sanitized := sanitize qp_texts
  if sanitized.isEmpty then .ok ([], t)
  else do
    let t ← useFuel t
    let qpMap0 := selectQPMap t.db sanitized
    let new_qps := sanitized.filter (fun s => (lookupA qpMap0 s).isNone)
    if new_qps.isEmpty then
      .ok (buildQPReturn qp_texts qpMap0, t)
    else do
      let t ← useFuel t
      let t := { t with db := insertQPs t.db new_qps }
      let t ← useFuel t
      .ok (buildQPReturn qp_texts (selectQPMap t.db sanitized), t)

/-- The `new_qps` subset of a resolver run: sanitized labels with no
existing master row (as reported by the batched lookup). -/
def qpNewTexts (db : DB) (qp_texts : List String) : List String :=
  (sanitize qp_texts).filter
    (fun s => (lookupA (selectQPMap db (sanitize qp_texts)) s).isNone)

/-- The store after a failure-free resolver run: the unseen labels
inserted. -/
def qpResolveDB (db : DB) (qp_texts : List String) : DB :=
  insertQPs db (qpNewTexts db qp_texts)

/-- The mapping returned by a failure-free resolver run. -/
def qpResolveMap (db : DB) (qp_texts : List String) : List (String × Nat) :=
  buildQPReturn qp_texts (selectQPMap (qpResolveDB db qp_texts) (sanitize qp_texts))

/-!
## Import Transaction Engine
-/

/-- The `os.path.basename(file_path).replace('_analysis.json', '.wav')`. -/
def audioFileName (file_path : String) : String :=
  replaceS (basename file_path) "_analysis.json" ".wav"

/-- The `eval_params` list comprehension of `process_individual_json`
(source lines 175–176): keep an item only when the Python-truthy lookup
of its TRIMMED label in `qp_map` succeeds. -/
def evalParams (analysis_id : Nat) (qp_map : List (String × Nat)) (items : List EvalItem) :
    List EvalRow :=
  (items.filter (fun item => qpTruthy (lookupA qp_map (strip (item.quality_point.getD ""))))).map
    (fun item => ⟨analysis_id, (lookupA qp_map (strip (item.quality_point.getD ""))).getD 0,
      item.finding, item.explanation_snippets⟩)

/-- The `process_individual_json` (source lines 161–180). -/
def process_individual_json (t : Tx) (json_data : JsonDoc) (file_path : String)
    (agent_id : Nat) (qp_map : List (String × Nat)) (ts : Nat) : Except Tx Tx := do
  let summary := json_data.call_summary.getD {}
  let remarks := json_data.concluding_remarks.getD {}
  let t ← useFuel t
  let analysis_id := t.db.nextId
  let row : IndRow := ⟨analysis_id, agent_id, summary.tech_dispatcher_name,
    audioFileName file_path, summary.call_duration, summary.client_name,
    summary.client_facility_company, summary.ticket_number, summary.client_callback_number,
    summary.ticket_status_type, summary.call_subject_summary,
    remarks.summary_positive_findings, remarks.summary_negative_findings,
    remarks.coaching_plan_for_growth, ts⟩
  let t := { t with db :=
    { t.db with indAnalyses := t.db.indAnalyses ++ [row], nextId := t.db.nextId + 1 } }
  let eval_params := evalParams analysis_id qp_map json_data.detailed_evaluation
  if eval_params.isEmpty then .ok t
  else do
    let t ← useFuel t
    .ok { t with db := { t.db with evalItems := t.db.evalItems ++ eval_params } }

/-- The `qp_params` list comprehension of `process_combined_json`
(source lines 205–207); same trimmed-label truthy filter. -/
def qpDetailParams (combined_id : Nat) (qp_map : List (String × Nat))
    (items : List QPDetailItem) : List QPDetailRow :=
  (items.filter (fun item => qpTruthy (lookupA qp_map (strip (item.quality_point.getD ""))))).map
    (fun item =>
      let fs := item.findings_summary.getD {}
      ⟨combined_id, (lookupA qp_map (strip (item.quality_point.getD ""))).getD 0,
        fs.positive_count, fs.negative_count, fs.neutral_count, item.trend_observation⟩)

/-- The `consolidated_coaching_focus` loop of `process_combined_json`
(source lines 199–203): one focus row per item with a truthy `area`,
plus its action rows when `specific_actions` is non-empty. -/
def insertFocusItems (combined_id : Nat) : Tx → List CoachingFocusItem → Except Tx Tx
  | t, [] => .ok t
  | t, focus_item :: rest =>
    match focus_item.area with
    | none => insertFocusItems combined_id t rest
    | some area_text =>
      if area_text = "" then insertFocusItems combined_id t rest
      else do
        let t ← useFuel t
        let focus_id := t.db.nextId
        let t := { t with db := { t.db with
          focus := t.db.focus ++ [⟨focus_id, combined_id, area_text⟩],
          nextId := t.db.nextId + 1 } }
        if focus_item.specific_actions.isEmpty then insertFocusItems combined_id t rest
        else do
          let t ← useFuel t
          let t := { t with db := { t.db with
            actions := t.db.actions ++ focus_item.specific_actions.map (fun a => ⟨focus_id, a⟩) } }
          insertFocusItems combined_id t rest

/-- The strengths batch insert of `process_combined_json` (source lines
195–196), executed only when the list is non-empty. -/
def insertStrengths (combined_id : Nat) (strengthTexts : List String) (t : Tx) :
    Except Tx Tx :=
  if strengthTexts.isEmpty then pure t
  else do
    let t ← useFuel t
    let rows : List StrengthRow := strengthTexts.map (fun s => ⟨combined_id, s⟩)
    pure { t with db := { t.db with strengths := t.db.strengths ++ rows } }

/-- The development-areas batch insert of `process_combined_json`
(source lines 197–198), executed only when the list is non-empty. -/
def insertDevAreas (combined_id : Nat) (devTexts : List String) (t : Tx) :
    Except Tx Tx :=
  if devTexts.isEmpty then pure t
  else do
    let t ← useFuel t
    let rows : List DevAreaRow := devTexts.map (fun d => ⟨combined_id, d⟩)
    pure { t with db := { t.db with devAreas := t.db.devAreas ++ rows } }

/-- The quality-point-details batch insert of `process_combined_json`
(source lines 208–209), executed only when the list is non-empty. -/
def insertQPDetails (qp_params : List QPDetailRow) (t : Tx) : Except Tx Tx :=
  if qp_params.isEmpty then .ok t
  else do
    let t ← useFuel t
    .ok { t with db := { t.db with qpDetails := t.db.qpDetails ++ qp_params } }

/-- The `process_combined_json` (source lines 182–209). -/
def process_combined_json (t : Tx) (json_data : JsonDoc) (agent_id : Nat)
    (qp_map : List (String × Nat)) (ts : Nat) : Except Tx Tx := do
  let header := json_data.report_header.getD {}
  let snapshot := json_data.overall_performance_snapshot.getD {}
  let counts := snapshot.aggregate_findings_counts.getD {}
  let t ← useFuel t
  let combined_id := t.db.nextId
  let row : CombRow := ⟨combined_id, agent_id, header.analysis_period_note,
    header.number_of_reports_provided, header.number_of_reports_successfully_analyzed,
    snapshot.total_calls_contributing_to_aggregates, counts.positive_count,
    counts.negative_count, counts.neutral_count, ts⟩
  let t := { t with db :=
    { t.db with combined := t.db.combined ++ [row], nextId := t.db.nextId + 1 } }
  let qual_summary := json_data.qualitative_summary_and_coaching_plan.getD {}
  let t ← insertStrengths combined_id qual_summary.overall_strengths_observed t
  let t ← insertDevAreas combined_id qual_summary.overall_areas_for_development t
  let t ← insertFocusItems combined_id t qual_summary.consolidated_coaching_focus
  insertQPDetails (qpDetailParams combined_id qp_map json_data.detailed_quality_point_analysis) t

/-- The store effect of `insertStrengths` when no failure occurs. -/
def strengthsPure (combined_id : Nat) (strengthTexts : List String) (db : DB) : DB :=
  if strengthTexts.isEmpty then db
  else { db with strengths := db.strengths ++ strengthTexts.map (fun s => ⟨combined_id, s⟩) }

/-- The store effect of `insertDevAreas` when no failure occurs. -/
def devAreasPure (combined_id : Nat) (devTexts : List String) (db : DB) : DB :=
  if devTexts.isEmpty then db
  else { db with devAreas := db.devAreas ++ devTexts.map (fun d => ⟨combined_id, d⟩) }

/-- The store effect of `insertQPDetails` when no failure occurs. -/
def qpDetailsPure (qp_params : List QPDetailRow) (db : DB) : DB :=
  if qp_params.isEmpty then db
  else { db with qpDetails := db.qpDetails ++ qp_params }

/-- The store effect of `insertFocusItems` when no failure occurs. -/
def focusPure (combined_id : Nat) : DB → List CoachingFocusItem → DB
  | db, [] => db
  | db, focus_item :: rest =>
    match focus_item.area with
    | none => focusPure combined_id db rest
    | some area_text =>
      if area_text = "" then focusPure combined_id db rest
      else
        let focus_id := db.nextId
        let db1 := { db with focus := db.focus ++ [⟨focus_id, combined_id, area_text⟩], nextId := db.nextId + 1 }
        let acts : List ActionRow := focus_item.specific_actions.map (fun a => ⟨focus_id, a⟩)
        let db2 := if focus_item.specific_actions.isEmpty then db1
          else { db1 with actions := db1.actions ++ acts }
        focusPure combined_id db2 rest

/-- The store effect of `process_individual_json` when no failure
occurs. -/
def indPure (db : DB) (json_data : JsonDoc) (file_path : String) (agent_id : Nat)
    (qp_map : List (String × Nat)) (ts : Nat) : DB :=
  let summary := json_data.call_summary.getD {}
  let remarks := json_data.concluding_remarks.getD {}
  let analysis_id := db.nextId
  let row : IndRow := ⟨analysis_id, agent_id, summary.tech_dispatcher_name,
    audioFileName file_path, summary.call_duration, summary.client_name,
    summary.client_facility_company, summary.ticket_number, summary.client_callback_number,
    summary.ticket_status_type, summary.call_subject_summary,
    remarks.summary_positive_findings, remarks.summary_negative_findings,
    remarks.coaching_plan_for_growth, ts⟩
  let db1 := { db with indAnalyses := db.indAnalyses ++ [row], nextId := db.nextId + 1 }
  let eval_params := evalParams analysis_id qp_map json_data.detailed_evaluation
  if eval_params.isEmpty then db1
  else { db1 with evalItems := db1.evalItems ++ eval_params }

/-- The store effect of `process_combined_json` when no failure
occurs. -/
def combPure (db : DB) (json_data : JsonDoc) (agent_id : Nat)
    (qp_map : List (String × Nat)) (ts : Nat) : DB :=
  let header := json_data.report_header.getD {}
  let snapshot := json_data.overall_performance_snapshot.getD {}
  let counts := snapshot.aggregate_findings_counts.getD {}
  let combined_id := db.nextId
  let row : CombRow := ⟨combined_id, agent_id, header.analysis_period_note,
    header.number_of_reports_provided, header.number_of_reports_successfully_analyzed,
    snapshot.total_calls_contributing_to_aggregates, counts.positive_count,
    counts.negative_count, counts.neutral_count, ts⟩
  let db1 := { db with combined := db.combined ++ [row], nextId := db.nextId + 1 }
  let qual_summary := json_data.qualitative_summary_and_coaching_plan.getD {}
  let db2 := strengthsPure combined_id qual_summary.overall_strengths_observed db1
  let db3 := devAreasPure combined_id qual_summary.overall_areas_for_development db2
  let db4 := focusPure combined_id db3 qual_summary.consolidated_coaching_focus
  qpDetailsPure (qpDetailParams combined_id qp_map json_data.detailed_quality_point_analysis) db4

/-!
## Path scanning (regular expressions of the source)
-/

/-- The numeric value of a decimal digit character. -/
def digitVal (c : Char) : Nat := c.toNat - 48

/-- Try to match `Week of (\d{4}-\d{2}-\d{2})` at the head of the
character list; on success return the year/month/day digit groups. -/
def tryWeekDate (l : List Char) : Option (Nat × Nat × Nat) :=
  if "Week of ".data.isPrefixOf l then
    match l.drop 8 with
    | y1 :: y2 :: y3 :: y4 :: s1 :: m1 :: m2 :: s2 :: d1 :: d2 :: _ =>
      if y1.isDigit && y2.isDigit && y3.isDigit && y4.isDigit && s1 = '-' &&
         m1.isDigit && m2.isDigit && s2 = '-' && d1.isDigit && d2.isDigit then
        some (((digitVal y1 * 10 + digitVal y2) * 10 + digitVal y3) * 10 + digitVal y4,
              digitVal m1 * 10 + digitVal m2, digitVal d1 * 10 + digitVal d2)
      else none
    | _ => none
  else none

/-- The `re.search` for the week pattern: first position where it matches. -/
def searchWeekDateAux : List Char → Option (Nat × Nat × Nat)
  | [] => none
  | c :: rest =>
    match tryWeekDate (c :: rest) with
    | some d => some d
    | none => searchWeekDateAux rest

/-- The `date_pattern.search(item)` of `find_latest_week_folder`. -/
def searchWeekDate (s : String) : Option (Nat × Nat × Nat) := searchWeekDateAux s.data

/-- Try to match `Week of \d{4}-\d{2}-\d{2}[\\/](\d{4})` at the head of
the character list; on success return the captured 4-digit extension. -/
def tryExtMatch (l : List Char) : Option String :=
  if "Week of ".data.isPrefixOf l then
    match l.drop 8 with
    | y1 :: y2 :: y3 :: y4 :: s1 :: m1 :: m2 :: s2 :: d1 :: d2 :: sep :: e1 :: e2 :: e3 :: e4 :: _ =>
      if y1.isDigit && y2.isDigit && y3.isDigit && y4.isDigit && s1 = '-' &&
         m1.isDigit && m2.isDigit && s2 = '-' && d1.isDigit && d2.isDigit &&
         (sep = '/' || sep = '\\') && e1.isDigit && e2.isDigit && e3.isDigit && e4.isDigit then
        some (String.mk [e1, e2, e3, e4])
      else none
    | _ => none
  else none

/-- The `re.search` for the extension pattern: first matching position. -/
def extractExtAux : List Char → Option String
  | [] => none
  | c :: rest =>
    match tryExtMatch (c :: rest) with
    | some s => some s
    | none => extractExtAux rest

/-- The `extract_extension_from_path` (source lines 119–123). -/
def extract_extension_from_path (file_path : String) : Option String :=
  extractExtAux file_path.data

/-!
## Batch directory discovery (`find_latest_week_folder`)
-/

/-- Gregorian leap-year rule (as validated by `strptime`). -/
def isLeapYear (y : Nat) : Bool := y % 4 = 0 && (y % 100 ≠ 0 || y % 400 = 0)

/-- Days in a month. -/
def daysInMonth (y m : Nat) : Nat :=
  if m = 2 then (if isLeapYear y then 29 else 28)
  else if m = 4 ∨ m = 6 ∨ m = 9 ∨ m = 11 then 30
  else 31

/-- The `datetime.strptime(s, '%Y-%m-%d')` succeeds exactly on calendar
dates within datetime's year range. -/
def validDate (y m d : Nat) : Bool :=
  1 ≤ y && y ≤ 9999 && 1 ≤ m && m ≤ 12 && 1 ≤ d && d ≤ daysInMonth y m

/-- A date as an order-preserving key (month and day are < 100, so the
encoding orders exactly like the calendar date). -/
def dateKey (y m d : Nat) : Nat := (y * 100 + m) * 100 + d

/-- A directory listing entry: a name and whether it is a directory. -/
structure DirEntry where
  name : String
  isDir : Bool
  deriving DecidableEq, Repr

/-- The `week_folders` accumulation of `find_latest_week_folder`:
directories whose name matches the week pattern with a valid date,
paired with their date key and joined path. -/
def weekCandidates (root_dir : String) (entries : List DirEntry) : List (Nat × String) :=
  entries.filterMap (fun e =>
    if e.isDir then
      match searchWeekDate e.name with
      | some (y, m, d) =>
        if validDate y m d then some (dateKey y m d, root_dir ++ "/" ++ e.name) else none
      | none => none
    else none)

/-- The `sorted(week_folders, key=lambda x: x[0], reverse=True)[0]`: the
first-listed candidate among those with the maximal date (Python's sort
is stable). -/
def pickLatest : List (Nat × String) → Option (Nat × String)
  | [] => none
  | x :: rest => some (rest.foldl (fun best y => if best.1 < y.1 then y else best) x)

/-- The `find_latest_week_folder` (source lines 60–84), over a directory
listing. -/
def find_latest_week_folder (root_dir : String) (entries : List DirEntry) : Option String :=
  (pickLatest (weekCandidates root_dir entries)).map (fun x => x.2)

/-!
## Batch Driver (`process_folder` per-file loop)
-/

/-- A discovered file: its path and its parse result (`none` models
`json.load` raising on malformed content). -/
structure FsFile where
  path : String
  parse : Option JsonDoc
  deriving DecidableEq, Repr

/-- The File-State Machine's three states. -/
inductive FileState where
  | pending
  | stored
  | badData
  deriving DecidableEq, Repr

/-- The `all_qps` set built in `process_folder` (source lines 244–245):
truthy `quality_point` labels from both detail lists. -/
def collectQPs (json_data : JsonDoc) : List String :=
  ((json_data.detailed_evaluation.filterMap (fun item => item.quality_point)).filter
      (fun s => s ≠ "") ++
    (json_data.detailed_quality_point_analysis.filterMap (fun item => item.quality_point)).filter
      (fun s => s ≠ "")).dedup

/-- The transactional body of the per-file loop (source lines 240–251):
agent resolution, batched quality-point resolution, then the shape
chosen by the combined-filename test.  A `None`/zero agent key raises
`ValueError` inside the transaction. -/
def attemptImport (race : Option AgentRow) (fuel : Option Nat) (ts : Nat) (db : DB)
    (agent_details : AgentDetails) (file_path : String) (json_data : JsonDoc) : Except Tx Tx := do
  let (agentIdOpt, t) ← get_or_create_agent race ⟨db, fuel, 0⟩ agent_details
  match agentIdOpt with
  | none => .error t
  | some agent_id =>
    if agent_id = 0 then .error t
    else do
      let (qp_map, t) ← get_or_create_quality_points t (collectQPs json_data)
      if infixS COMBINED_REPORT_FILENAME (basename file_path) then
        process_combined_json t json_data agent_id qp_map ts
      else
        process_individual_json t json_data file_path agent_id qp_map ts

/-- One iteration of the `process_folder` loop (source lines 228–261):
no extension → skip (`continue`, still `Pending`); malformed JSON or a
failed transaction → rollback to the committed store and a `BadData`
rename; success → commit and a `Stored` rename.  The third component is
the number of agent-extension lookups issued. -/
def processOneFile (ext_map : List (String × AgentDetails)) (race : Option AgentRow)
    (fuel : Option Nat) (ts : Nat) (db : DB) (file : FsFile) : DB × FileState × Nat :=
  match extract_extension_from_path file.path with
  | none => (db, .pending, 0)
  | some extension =>
    let agent_details := (lookupDetails ext_map extension).getD
      ⟨"Un-rostered Agent - " ++ extension, none, extension⟩
    match file.parse with
    | none => (db, .badData, 0)
    | some json_data =>
      match attemptImport race fuel ts db agent_details file.path json_data with
      | .ok t => (t.db, .stored, t.agentLookups)
      | .error t => (db, .badData, t.agentLookups)

/-- The whole per-file loop: every discovered file is processed in
sequence against the evolving committed store; each file's terminal
state is recorded and no file's failure stops its successors. -/
def processFiles (ext_map : List (String × AgentDetails)) (race : Option AgentRow)
    (fuel : Option Nat) (ts : Nat) : DB → List FsFile → DB × List (String × FileState)
  | db, [] => (db, [])
  | db, f :: rest =>
    let r := processOneFile ext_map race fuel ts db f
    let res := processFiles ext_map race fuel ts r.1 rest
    (res.1, (f.path, r.2.1) :: res.2)

/-- Store well-formedness: the issuing counter and all quality-point
keys are positive (SQL Server identities start at 1) and canonical
texts are unique, as the store's uniqueness constraint guarantees. -/
def WFdb (db : DB) : Prop :=
  1 ≤ db.nextId ∧ (∀ r ∈ db.qpm, 1 ≤ r.qpId) ∧ (db.qpm.map QPRow.text).Nodup

instance (db : DB) : Decidable (WFdb db) := by
  unfold WFdb; infer_instance

/-- Every analysis row (individual or combined) present in `db1` but
not inherited from `db0` carries the batch timestamp `ts`. -/
def tsOnly (db0 db1 : DB) (ts : Nat) : Prop :=
  (∀ r ∈ db1.indAnalyses, r ∈ db0.indAnalyses ∨ r.processingDateTime = ts) ∧
  (∀ r ∈ db1.combined, r ∈ db0.combined ∨ r.processingDateTime = ts)

/-!
## Concrete fixtures used by witnesses and counterexamples
-/

/-- An individual-analysis document with one evaluation item. -/
def exDoc1 : JsonDoc :=
  { detailed_evaluation :=
      [{ quality_point := some "Tone", finding := some "Positive",
         explanation_snippets := some "snip" }] }

/-- A well-placed individual-analysis file. -/
def exFile1 : FsFile := ⟨"Week of 2024-06-09/1001/call1_analysis.json", some exDoc1⟩

/-- A file whose path carries no week/extension pattern. -/
def exFileNoExt : FsFile := ⟨"call1_analysis.json", some exDoc1⟩

/-- A document whose only quality-point label carries surrounding
whitespace. -/
def exDocPadded : JsonDoc :=
  { detailed_evaluation :=
      [{ quality_point := some " Tone ", finding := some "Positive",
         explanation_snippets := some "snip" }] }

/-- A well-placed file holding `exDocPadded`. -/
def exFilePadded : FsFile := ⟨"Week of 2024-06-09/1001/call2_analysis.json", some exDocPadded⟩

/-!
## Theorems
-/

/-- Prepending a marker makes the marker a prefix of the name. -/
theorem startsWithS_append (p f : String) : startsWithS (p ++ f) p = true := by
  rw [startsWithS, String.data_append]
  exact List.isPrefixOf_iff_prefix.mpr (List.prefix_append _ _)

/-- A name carrying either terminal marker is rejected by the discovery
filter. -/
theorem marked_not_discovered (dir : List String) (f : String)
    (h : startsWithS f STORED_MARKER = true ∨ startsWithS f BADDATA_MARKER = true) :
    f ∉ discover dir := by
  intro hmem
  have hp := List.of_mem_filter hmem
  rcases h with h | h <;> simp [h] at hp

/-- C6: discovery is a pure function of the directory listing, so two
runs with no intervening change return the same candidate set; and any
file name bearing the success marker or the failure marker — in
particular any name produced by the File-State Machine's renames — is
excluded from discovery on every run. -/
theorem claim6_idempotent_discovery (dir : List String) (f : String) :
    discover dir = discover dir ∧
    ((startsWithS f STORED_MARKER = true ∨ startsWithS f BADDATA_MARKER = true) →
      f ∉ discover dir) ∧
    markStored f ∉ discover dir ∧ markBadData f ∉ discover dir := by
  refine ⟨rfl, fun h => marked_not_discovered dir f h, ?_, ?_⟩
  · exact marked_not_discovered dir _ (Or.inl (startsWithS_append _ f))
  · exact marked_not_discovered dir _ (Or.inr (startsWithS_append _ f))

/-- Witness for C6: a directory listing a `Stored-`-marked report does
not offer it as a candidate. -/
theorem claim6_idempotent_discovery_witness :
    "Stored-call1_analysis.json" ∉ discover ["Stored-call1_analysis.json"] :=
  (claim6_idempotent_discovery ["Stored-call1_analysis.json"]
    "Stored-call1_analysis.json").2.1 (Or.inl (by decide))

/-- The first-of-maximum fold behind `pickLatest` returns an element of
the accumulated list that every key is bounded by. -/
theorem foldl_latest_spec (l : List (Nat × String)) :
    ∀ a : Nat × String,
      (l.foldl (fun best y => if best.1 < y.1 then y else best) a) ∈ a :: l ∧
      a.1 ≤ (l.foldl (fun best y => if best.1 < y.1 then y else best) a).1 ∧
      ∀ y ∈ l, y.1 ≤ (l.foldl (fun best y => if best.1 < y.1 then y else best) a).1 := by
  induction l with
  | nil => intro a; simp
  | cons b rest ih =>
    intro a
    by_cases h : a.1 < b.1
    · have hb := ih b
      refine ⟨?_, ?_, ?_⟩
      · simp only [List.foldl_cons, if_pos h]
        rcases List.mem_cons.mp hb.1 with h1 | h1
        · simp [h1]
        · simp only [List.mem_cons] at h1 ⊢; tauto
      · simp only [List.foldl_cons, if_pos h]
        exact le_trans (le_of_lt h) hb.2.1
      · intro y hy
        simp only [List.foldl_cons, if_pos h]
        rcases List.mem_cons.mp hy with rfl | hy
        · exact hb.2.1
        · exact hb.2.2 y hy
    · have ha := ih a
      refine ⟨?_, ?_, ?_⟩
      · simp only [List.foldl_cons, if_neg h]
        rcases List.mem_cons.mp ha.1 with h1 | h1
        · simp [h1]
        · simp only [List.mem_cons] at h1 ⊢; tauto
      · simp only [List.foldl_cons, if_neg h]
        exact ha.2.1
      · intro y hy
        simp only [List.foldl_cons, if_neg h]
        rcases List.mem_cons.mp hy with rfl | hy
        · exact le_trans (le_of_not_lt h) ha.2.1
        · exact ha.2.2 y hy

/-- The `pickLatest` is `none` exactly on the empty candidate list. -/
theorem pickLatest_eq_none (l : List (Nat × String)) :
    pickLatest l = none ↔ l = [] := by
  cases l <;> simp [pickLatest]

/-- The `pickLatest` returns a listed candidate whose key dominates all. -/
theorem pickLatest_spec (l : List (Nat × String)) (x : Nat × String)
    (h : pickLatest l = some x) : x ∈ l ∧ ∀ y ∈ l, y.1 ≤ x.1 := by
  match l, h with
  | a :: rest, h =>
    have hs := foldl_latest_spec rest a
    have hx : rest.foldl (fun best y => if best.1 < y.1 then y else best) a = x := by
      simpa [pickLatest] using h
    rw [hx] at hs
    refine ⟨hs.1, ?_⟩
    intro y hy
    rcases List.mem_cons.mp hy with rfl | hy
    · exact hs.2.1
    · exact hs.2.2 y hy

/-- C9: `find_latest_week_folder` returns no directory exactly when no
subdirectory matches the dated-folder convention with a valid calendar
date; and when it returns a directory, that directory is a matching
candidate whose embedded date is maximal among all candidates. -/
theorem claim9_latest_week_folder (root_dir : String) (entries : List DirEntry) :
    (find_latest_week_folder root_dir entries = none ↔
      weekCandidates root_dir entries = []) ∧
    (∀ p, find_latest_week_folder root_dir entries = some p →
      ∃ kv ∈ weekCandidates root_dir entries, kv.2 = p ∧
        ∀ kv' ∈ weekCandidates root_dir entries, kv'.1 ≤ kv.1) := by
  constructor
  · rw [find_latest_week_folder, Option.map_eq_none']
    exact pickLatest_eq_none _
  · intro p hp
    rw [find_latest_week_folder] at hp
    cases hx : pickLatest (weekCandidates root_dir entries) with
    | none => rw [hx] at hp; simp at hp
    | some x =>
      rw [hx] at hp
      simp only [Option.map_some'] at hp
      have hs := pickLatest_spec _ x hx
      exact ⟨x, hs.1, by simpa using hp, hs.2⟩

/-- Witness for C9: among two valid week folders, a non-matching
directory, a non-directory and an invalid date, the 2024-06-09 folder is
returned and dominates. -/
theorem claim9_latest_week_folder_witness :
    ∃ kv ∈ weekCandidates "/root" [⟨"Week of 2024-06-02", true⟩, ⟨"Week of 2024-06-09", true⟩,
        ⟨"notes", true⟩, ⟨"Week of 2024-06-16", false⟩, ⟨"Week of 2024-13-01", true⟩],
      kv.2 = "/root/Week of 2024-06-09" ∧
      ∀ kv' ∈ weekCandidates "/root" [⟨"Week of 2024-06-02", true⟩, ⟨"Week of 2024-06-09", true⟩,
          ⟨"notes", true⟩, ⟨"Week of 2024-06-16", false⟩, ⟨"Week of 2024-13-01", true⟩],
        kv'.1 ≤ kv.1 :=
  (claim9_latest_week_folder "/root" [⟨"Week of 2024-06-02", true⟩, ⟨"Week of 2024-06-09", true⟩,
      ⟨"notes", true⟩, ⟨"Week of 2024-06-16", false⟩, ⟨"Week of 2024-13-01", true⟩]).2
    "/root/Week of 2024-06-09" (by decide)

/-- C1: whenever a file's processing ends in the failure state — an
exception at any SQL statement of the import transaction, injected via
the fuel countdown or raised by a constraint violation — the committed
store is exactly what it was before the file was touched, so no row
originating from that document persists. -/
theorem claim1_rollback_atomicity (ext_map : List (String × AgentDetails))
    (race : Option AgentRow) (fuel : Option Nat) (ts : Nat) (db : DB) (f : FsFile)
    (h : (processOneFile ext_map race fuel ts db f).2.1 = FileState.badData) :
    (processOneFile ext_map race fuel ts db f).1 = db := by
  cases hx : extract_extension_from_path f.path with
  | none => simp [processOneFile, hx]
  | some ext =>
    cases hp : f.parse with
    | none => simp [processOneFile, hx, hp]
    | some json_data =>
      cases ha : attemptImport race fuel ts db ((lookupDetails ext_map ext).getD
          ⟨"Un-rostered Agent - " ++ ext, none, ext⟩) f.path json_data with
      | ok t =>
        exfalso
        simp [processOneFile, hx, hp, ha] at h
      | error t => simp [processOneFile, hx, hp, ha]

/-- Witness for C1, realizing the spec's atomicity scenario: the fuel
countdown makes the seventh SQL statement — the child evaluation-item
insert, right after the top-level analysis insert — fail; the run ends
in `BadData` and the store shows zero rows for the document. -/
theorem claim1_rollback_atomicity_witness :
    (processOneFile [] none (some 6) 42 emptyDB exFile1).1 = emptyDB :=
  claim1_rollback_atomicity [] none (some 6) 42 emptyDB exFile1 (by decide)

/-- C3 as stated is false on the code: with a concurrent batch having
inserted extension "1001" between the resolver's lookup and its insert,
the insert hits the uniqueness constraint and raises — but the caller
performs exactly ONE extension lookup (no retry of the lookup) and the
document is immediately failed with a rollback. -/
theorem claim3_counterexample :
    processOneFile [] (some ⟨99, "Existing Agent", none, "1001"⟩) none 42 emptyDB exFile1 =
      (emptyDB, FileState.badData, 1) := by
  decide

/-- Any extension captured by the path pattern has four characters. -/
theorem tryExtMatch_ne_empty (l : List Char) (s : String)
    (h : tryExtMatch l = some s) : s ≠ "" := by
  unfold tryExtMatch at h
  split at h
  · split at h
    · split at h
      · rename_i heq
        intro hs
        rw [hs] at h
        simp only [Option.some.injEq] at h
        have := congrArg String.data h
        simp at this
      · exact absurd h (by simp)
    · exact absurd h (by simp)
  · exact absurd h (by simp)

/-- The extension scan never returns the empty string. -/
theorem extractExtAux_ne_empty (l : List Char) (s : String)
    (h : extractExtAux l = some s) : s ≠ "" := by
  induction l with
  | nil => exact absurd h (by simp [extractExtAux])
  | cons c rest ih =>
    rw [extractExtAux] at h
    cases hm : tryExtMatch (c :: rest) with
    | some s' =>
      rw [hm] at h
      simp only [Option.some.injEq] at h
      exact h ▸ tryExtMatch_ne_empty _ _ hm
    | none =>
      rw [hm] at h
      exact ih h

/-- The `extract_extension_from_path` never returns the empty string. -/
theorem extract_extension_ne_empty (p s : String)
    (h : extract_extension_from_path p = some s) : s ≠ "" :=
  extractExtAux_ne_empty p.data s h

/-- The synthesized un-rostered display name is never the empty string. -/
theorem unrostered_name_ne_empty (ext : String) :
    ("Un-rostered Agent - " ++ ext) ≠ "" := by
  intro h
  have := congrArg String.data h
  rw [String.data_append] at this
  simp at this

/-- C3 amended: when the Agent insert violates the extension-uniqueness
constraint (a concurrent batch inserted the same extension between the
resolver's lookup and its insert), the resolver raises a write error and
the caller does NOT retry the lookup: exactly one extension lookup is
issued, the transaction is rolled back, and the document is marked
`BadData` at the batch boundary. -/
theorem claim3_amended_no_retry (ext_map : List (String × AgentDetails))
    (ts : Nat) (db : DB) (f : FsFile) (ext : String) (r : AgentRow) (json_data : JsonDoc)
    (hx : extract_extension_from_path f.path = some ext)
    (hm : lookupDetails ext_map ext = none)
    (hp : f.parse = some json_data)
    (hf : findAgent db ext = none)
    (hr : r.extension = ext) :
    processOneFile ext_map (some r) none ts db f = (db, FileState.badData, 1) := by
  have hne : ext ≠ "" := extract_extension_ne_empty f.path ext hx
  have hname := unrostered_name_ne_empty ext
  simp [processOneFile, hx, hm, hp, attemptImport, get_or_create_agent, useFuel,
    hf, hr, hname, hne, bind, Except.bind, List.any_append]

/-- Witness for C3's amended statement at a concrete race. -/
theorem claim3_amended_no_retry_witness :
    processOneFile [] (some ⟨99, "Existing Agent", none, "1001"⟩) none 42 emptyDB exFilePadded =
      (emptyDB, FileState.badData, 1) :=
  claim3_amended_no_retry [] 42 emptyDB exFilePadded "1001"
    ⟨99, "Existing Agent", none, "1001"⟩ exDocPadded (by decide) rfl rfl rfl rfl

/-- C4 fails as stated: a file whose path yields no extension code — a
failure to determine the document's agent linkage — is skipped by
`continue` and left `Pending`; it is NOT transitioned to the `BadData`
failure marker. -/
theorem claim4_counterexample :
    (processOneFile [] none none 42 emptyDB exFileNoExt).2.1 = FileState.pending ∧
    (processOneFile [] none none 42 emptyDB exFileNoExt).2.1 ≠ FileState.badData := by
  constructor
  · decide
  · decide

/-- C4 amended: every discovered file receives its own verdict — the
loop records one terminal decision per file and no failure aborts the
remaining siblings; a file is left `Pending` (skipped, no marker) if and
only if its path yields no extension code; in every other case an error
anywhere in parsing or the import transaction is caught at the batch
boundary and converted into the `BadData` transition, while only a
committed import yields `Stored`. -/
theorem claim4_amended_error_boundary (ext_map : List (String × AgentDetails))
    (race : Option AgentRow) (fuel : Option Nat) (ts : Nat) (db : DB) (files : List FsFile) :
    ((processFiles ext_map race fuel ts db files).2.map Prod.fst = files.map FsFile.path) ∧
    (∀ db' f, ((processOneFile ext_map race fuel ts db' f).2.1 = FileState.pending ↔
      extract_extension_from_path f.path = none)) ∧
    (∀ db' f ext, extract_extension_from_path f.path = some ext → f.parse = none →
      (processOneFile ext_map race fuel ts db' f).2.1 = FileState.badData) ∧
    (∀ db' f ext json_data t, extract_extension_from_path f.path = some ext →
      f.parse = some json_data →
      attemptImport race fuel ts db' ((lookupDetails ext_map ext).getD
        ⟨"Un-rostered Agent - " ++ ext, none, ext⟩) f.path json_data = Except.error t →
      (processOneFile ext_map race fuel ts db' f).2.1 = FileState.badData) := by
  refine ⟨?_, ?_, ?_, ?_⟩
  · induction files generalizing db with
    | nil => rfl
    | cons f rest ih => simp [processFiles, ih]
  · intro db' f
    cases hx : extract_extension_from_path f.path with
    | none => simp [processOneFile, hx]
    | some ext =>
      cases hp : f.parse with
      | none => simp [processOneFile, hx, hp]
      | some json_data =>
        cases ha : attemptImport race fuel ts db' ((lookupDetails ext_map ext).getD
            ⟨"Un-rostered Agent - " ++ ext, none, ext⟩) f.path json_data with
        | ok t => simp [processOneFile, hx, hp, ha]
        | error t => simp [processOneFile, hx, hp, ha]
  · intro db' f ext hx hp
    simp [processOneFile, hx, hp]
  · intro db' f ext json_data t hx hp ha
    simp [processOneFile, hx, hp, ha]

/-- Witness for C4's amended statement: a three-file batch whose middle
file is malformed ends with verdicts for all three paths, and the
malformed one alone does not make its siblings disappear. -/
theorem claim4_amended_error_boundary_witness :
    (processFiles [] none none 42 emptyDB
        [exFile1, ⟨"Week of 2024-06-09/1002/call9_analysis.json", none⟩, exFilePadded]).2.map
      Prod.fst =
      [exFile1.path, "Week of 2024-06-09/1002/call9_analysis.json", exFilePadded.path] :=
  (claim4_amended_error_boundary [] none none 42 emptyDB
    [exFile1, ⟨"Week of 2024-06-09/1002/call9_analysis.json", none⟩, exFilePadded]).1

/-!
## Lemmas about the batched QualityPoint resolver
-/

/-- The `find?` over an append when the first part already found a row. -/
theorem find?_append_some {α} (p : α → Bool) (l1 l2 : List α) (r : α)
    (h : l1.find? p = some r) : (l1 ++ l2).find? p = some r := by
  rw [List.find?_append, h]; rfl

/-- The `find?` over an append when the first part misses. -/
theorem find?_append_none {α} (p : α → Bool) (l1 l2 : List α)
    (h : l1.find? p = none) : (l1 ++ l2).find? p = l2.find? p := by
  rw [List.find?_append, h]; rfl

/-- No select entry exists for a label with no master row. -/
theorem lookupA_selectQPMap_none (db : DB) (l : List String) (s : String)
    (h : findQP db s = none) : lookupA (selectQPMap db l) s = none := by
  induction l with
  | nil => rfl
  | cons a rest ih =>
    by_cases ha : a = s
    · subst ha
      simp only [selectQPMap, List.filterMap_cons, h]
      exact ih
    · simp only [selectQPMap, List.filterMap_cons]
      cases hf : findQP db a with
      | none => exact ih
      | some r => simp only [Option.map_some', lookupA, if_neg ha]; exact ih

/-- The select entry of a listed label with a master row is its key. -/
theorem lookupA_selectQPMap_some (db : DB) (l : List String) (s : String) (r : QPRow)
    (hs : s ∈ l) (h : findQP db s = some r) :
    lookupA (selectQPMap db l) s = some r.qpId := by
  induction l with
  | nil => cases hs
  | cons a rest ih =>
    by_cases ha : a = s
    · subst ha
      simp [selectQPMap, List.filterMap_cons, h, lookupA]
    · rcases List.mem_cons.mp hs with rfl | hs'
      · exact absurd rfl ha
      · simp only [selectQPMap, List.filterMap_cons]
        cases hf : findQP db a with
        | none => exact ih hs'
        | some r' => simp only [Option.map_some', lookupA, if_neg ha]; exact ih hs'

/-- No select entry exists for an unlisted label. -/
theorem lookupA_selectQPMap_not_mem (db : DB) (l : List String) (s : String)
    (h : s ∉ l) : lookupA (selectQPMap db l) s = none := by
  induction l with
  | nil => rfl
  | cons a rest ih =>
    have ha : a ≠ s := fun he => h (he ▸ List.mem_cons_self a rest)
    have hrest : s ∉ rest := fun hr => h (List.mem_cons_of_mem a hr)
    simp only [selectQPMap, List.filterMap_cons]
    cases hf : findQP db a with
    | none => exact ih hrest
    | some r => simp only [Option.map_some', lookupA, if_neg ha]; exact ih hrest

/-- The returned mapping has no entry for a label whose trimmed form
resolved to nothing. -/
theorem lookupA_buildQPReturn_none (l : List String) (m : List (String × Nat)) (orig : String)
    (h : lookupA m (strip orig) = none) : lookupA (buildQPReturn l m) orig = none := by
  induction l with
  | nil => rfl
  | cons a rest ih =>
    by_cases ha : a = orig
    · subst ha
      simp only [buildQPReturn, List.filterMap_cons, h]
      exact ih
    · simp only [buildQPReturn, List.filterMap_cons]
      cases hl : lookupA m (strip a) with
      | none => exact ih
      | some v => simp only [Option.map_some', lookupA, if_neg ha]; exact ih

/-- For a supplied label, the returned mapping is the select map queried
at the TRIMMED label. -/
theorem lookupA_buildQPReturn_mem (l : List String) (m : List (String × Nat)) (orig : String)
    (h : orig ∈ l) : lookupA (buildQPReturn l m) orig = lookupA m (strip orig) := by
  induction l with
  | nil => cases h
  | cons a rest ih =>
    by_cases ha : a = orig
    · subst ha
      simp only [buildQPReturn, List.filterMap_cons]
      cases hl : lookupA m (strip a) with
      | none => exact lookupA_buildQPReturn_none rest m a hl
      | some v => simp [lookupA]
    · rcases List.mem_cons.mp h with rfl | h'
      · exact absurd rfl ha
      · simp only [buildQPReturn, List.filterMap_cons]
        cases hl : lookupA m (strip a) with
        | none => exact ih h'
        | some v => simp only [Option.map_some', lookupA, if_neg ha]; exact ih h'

/-- The returned mapping has no entry for an unsupplied label. -/
theorem lookupA_buildQPReturn_not_mem (l : List String) (m : List (String × Nat)) (orig : String)
    (h : orig ∉ l) : lookupA (buildQPReturn l m) orig = none := by
  induction l with
  | nil => rfl
  | cons a rest ih =>
    have ha : a ≠ orig := fun he => h (he ▸ List.mem_cons_self a rest)
    have hrest : orig ∉ rest := fun hr => h (List.mem_cons_of_mem a hr)
    simp only [buildQPReturn, List.filterMap_cons]
    cases hl : lookupA m (strip a) with
    | none => exact ih hrest
    | some v => simp only [Option.map_some', lookupA, if_neg ha]; exact ih hrest

/-- The quality-point batch insert appends one row per text, with the
bonus flag computed by the marker test and keys issued from the
counter. -/
theorem insertQPs_qpm (db : DB) (texts : List String) :
    ∃ rows : List QPRow, (insertQPs db texts).qpm = db.qpm ++ rows ∧
      rows.map QPRow.text = texts ∧
      ∀ r ∈ rows, r.isBonus = hasBonusMarker r.text ∧ db.nextId ≤ r.qpId := by
  induction texts generalizing db with
  | nil => exact ⟨[], by simp [insertQPs], rfl, by simp⟩
  | cons s rest ih =>
    obtain ⟨rows', h1, h2, h3⟩ := ih
      { db with qpm := db.qpm ++ [⟨db.nextId, s, hasBonusMarker s⟩], nextId := db.nextId + 1 }
    refine ⟨⟨db.nextId, s, hasBonusMarker s⟩ :: rows', ?_, ?_, ?_⟩
    · show (insertQPs _ rest).qpm = _
      rw [h1]
      simp
    · simp [h2]
    · intro r hr
      rcases List.mem_cons.mp hr with rfl | hr'
      · exact ⟨rfl, le_refl _⟩
      · have := h3 r hr'
        exact ⟨this.1, le_trans (Nat.le_succ _) this.2⟩

/-- The quality-point batch insert touches no other table and never
decreases the issuing counter. -/
theorem insertQPs_other (db : DB) (texts : List String) :
    (insertQPs db texts).agents = db.agents ∧
    (insertQPs db texts).indAnalyses = db.indAnalyses ∧
    (insertQPs db texts).evalItems = db.evalItems ∧
    (insertQPs db texts).combined = db.combined ∧
    (insertQPs db texts).strengths = db.strengths ∧
    (insertQPs db texts).devAreas = db.devAreas ∧
    (insertQPs db texts).focus = db.focus ∧
    (insertQPs db texts).actions = db.actions ∧
    (insertQPs db texts).qpDetails = db.qpDetails ∧
    db.nextId ≤ (insertQPs db texts).nextId := by
  induction texts generalizing db with
  | nil => simp [insertQPs]
  | cons s rest ih =>
    have h := ih { db with qpm := db.qpm ++ [⟨db.nextId, s, hasBonusMarker s⟩], nextId := db.nextId + 1 }
    refine ⟨h.1, h.2.1, h.2.2.1, h.2.2.2.1, h.2.2.2.2.1, h.2.2.2.2.2.1, h.2.2.2.2.2.2.1,
      h.2.2.2.2.2.2.2.1, h.2.2.2.2.2.2.2.2.1, le_trans (Nat.le_succ _) h.2.2.2.2.2.2.2.2.2⟩

/-- The returned mapping built over the empty select map is empty. -/
theorem buildQPReturn_nil_map (l : List String) : buildQPReturn l [] = [] := by
  induction l with
  | nil => rfl
  | cons a rest ih => simp [buildQPReturn, lookupA]


/-- A failure-free resolver run is the pure lookup–insert–relookup
pipeline: no fuel consumed, no lookup counted, and the returned mapping
and store are the pure functions of the inputs. -/
theorem qp_resolver_fuelNone (db : DB) (c : Nat) (l : List String) :
    get_or_create_quality_points ⟨db, none, c⟩ l =
      .ok (qpResolveMap db l, ⟨qpResolveDB db l, none, c⟩) := by
  by_cases h1 : (sanitize l).isEmpty
  · have hl : sanitize l = [] := List.isEmpty_iff.mp h1
    have hnew : qpNewTexts db l = [] := by simp [qpNewTexts, hl]
    have hdb : qpResolveDB db l = db := by simp [qpResolveDB, hnew, insertQPs]
    have hm : qpResolveMap db l = [] := by
      rw [qpResolveMap, hl]
      exact buildQPReturn_nil_map l
    simp only [get_or_create_quality_points, if_pos h1, hm, hdb]
  · by_cases h2 : ((sanitize l).filter
        (fun s => (lookupA (selectQPMap db (sanitize l)) s).isNone)).isEmpty
    · have hnew : qpNewTexts db l = [] := List.isEmpty_iff.mp h2
      have hdb : qpResolveDB db l = db := by simp [qpResolveDB, hnew, insertQPs]
      have hm : qpResolveMap db l = buildQPReturn l (selectQPMap db (sanitize l)) := by
        rw [qpResolveMap, hdb]
      simp only [get_or_create_quality_points, if_neg h1, useFuel, bind, Except.bind,
        if_pos h2, hm, hdb]
    · have hdb : qpResolveDB db l = insertQPs db (qpNewTexts db l) := rfl
      simp only [get_or_create_quality_points, if_neg h1, useFuel, bind, Except.bind,
        if_neg h2]
      rfl

/-- The executable substring test agrees with list infixhood. -/
theorem infixOf_iff (pat l : List Char) : infixOf pat l = true ↔ pat <:+: l := by
  induction l with
  | nil =>
    rw [infixOf, List.isPrefixOf_iff_prefix]
    rw [List.prefix_nil, List.infix_nil]
  | cons c rest ih =>
    rw [infixOf, Bool.or_eq_true, List.isPrefixOf_iff_prefix, ih, List.infix_cons_iff]

/-- Every label of `collectQPs` is non-empty (Python-truthy). -/
theorem collectQPs_ne_empty (doc : JsonDoc) (s : String) (h : s ∈ collectQPs doc) :
    s ≠ "" := by
  rw [collectQPs, List.mem_dedup, List.mem_append] at h
  rcases h with h | h <;>
    simpa using (List.mem_filter.mp h).2

/-- The trimmed form of a non-empty supplied label is sanitized. -/
theorem strip_mem_sanitize (l : List String) (s : String) (hs : s ∈ l) (hne : s ≠ "") :
    strip s ∈ sanitize l := by
  rw [sanitize, List.mem_dedup]
  exact List.mem_map_of_mem strip (List.mem_filter.mpr ⟨hs, by simpa using hne⟩)

/-- After a failure-free resolver run every sanitized label has a
master row. -/
theorem qpResolveDB_findQP_isSome (db : DB) (l : List String) (s : String)
    (hs : s ∈ sanitize l) : ∃ r, findQP (qpResolveDB db l) s = some r := by
  obtain ⟨rows, h1, h2, _⟩ := insertQPs_qpm db (qpNewTexts db l)
  cases hf : findQP db s with
  | some r =>
    refine ⟨r, ?_⟩
    have h1' : (qpResolveDB db l).qpm = db.qpm ++ rows := h1
    show (qpResolveDB db l).qpm.find? (fun row => row.text = s) = some r
    rw [h1']
    exact find?_append_some _ _ _ _ hf
  | none =>
    have hnone : (lookupA (selectQPMap db (sanitize l)) s).isNone = true := by
      rw [lookupA_selectQPMap_none db _ s hf]; rfl
    have hmem : s ∈ qpNewTexts db l := by
      rw [qpNewTexts]
      exact List.mem_filter.mpr ⟨hs, hnone⟩
    have : s ∈ rows.map QPRow.text := h2 ▸ hmem
    obtain ⟨r, hr, hrt⟩ := List.mem_map.mp this
    have hsome : (rows.find? (fun row => row.text = s)).isSome := by
      apply List.find?_isSome.mpr
      exact ⟨r, hr, by simpa using hrt⟩
    obtain ⟨r', hr'⟩ := Option.isSome_iff_exists.mp hsome
    refine ⟨r', ?_⟩
    have h1' : (qpResolveDB db l).qpm = db.qpm ++ rows := h1
    show (qpResolveDB db l).qpm.find? (fun row => row.text = s) = some r'
    rw [h1', find?_append_none _ _ _ hf]
    exact hr'

/-- In a well-formed store, every master row visible after a resolver
run has a positive key. -/
theorem qpResolveDB_findQP_pos (db : DB) (l : List String) (s : String) (r : QPRow)
    (hwf : WFdb db) (h : findQP (qpResolveDB db l) s = some r) : 1 ≤ r.qpId := by
  obtain ⟨rows, h1, _, h3⟩ := insertQPs_qpm db (qpNewTexts db l)
  have hmem : r ∈ (qpResolveDB db l).qpm := List.mem_of_find?_eq_some h
  have h1' : (qpResolveDB db l).qpm = db.qpm ++ rows := h1
  rw [h1', List.mem_append] at hmem
  rcases hmem with hm | hm
  · exact hwf.2.1 r hm
  · exact le_trans hwf.1 (h3 r hm).2

/-- C8: a failure-free batched resolver run extends the master list by
exactly one row per unseen sanitized label, and a created row's bonus
flag is set if and only if the row's label contains the fixed marker
token `[BONUS]`, matched case-insensitively (via ASCII uppercasing, as
in the source). -/
theorem claim8_bonus_flag (db : DB) (c : Nat) (l : List String) :
    ∃ rows : List QPRow,
      get_or_create_quality_points ⟨db, none, c⟩ l =
        .ok (qpResolveMap db l, ⟨qpResolveDB db l, none, c⟩) ∧
      (qpResolveDB db l).qpm = db.qpm ++ rows ∧
      rows.map QPRow.text = qpNewTexts db l ∧
      ∀ r ∈ rows, (r.isBonus = true ↔ "[BONUS]".data <:+: (upperS r.text).data) := by
  obtain ⟨rows, h1, h2, h3⟩ := insertQPs_qpm db (qpNewTexts db l)
  refine ⟨rows, qp_resolver_fuelNone db c l, h1, h2, ?_⟩
  intro r hr
  rw [(h3 r hr).1, hasBonusMarker, infixS, infixOf_iff]

/-- Witness for C8 on a bonus-marked and an unmarked label. -/
theorem claim8_bonus_flag_witness :
    ∃ rows : List QPRow,
      get_or_create_quality_points ⟨emptyDB, none, 0⟩ ["[bonus] Upsell Attempt", "Tone"] =
        .ok (qpResolveMap emptyDB ["[bonus] Upsell Attempt", "Tone"],
          ⟨qpResolveDB emptyDB ["[bonus] Upsell Attempt", "Tone"], none, 0⟩) ∧
      (qpResolveDB emptyDB ["[bonus] Upsell Attempt", "Tone"]).qpm = emptyDB.qpm ++ rows ∧
      rows.map QPRow.text = qpNewTexts emptyDB ["[bonus] Upsell Attempt", "Tone"] ∧
      ∀ r ∈ rows, (r.isBonus = true ↔ "[BONUS]".data <:+: (upperS r.text).data) :=
  claim8_bonus_flag emptyDB 0 ["[bonus] Upsell Attempt", "Tone"]

/-- C5 fails as stated: a whitespace-only label is NOT discarded — on
an empty store the resolver gives it a key (1) and creates a master row
whose canonical text is the empty string. -/
theorem claim5_counterexample :
    get_or_create_quality_points ⟨emptyDB, none, 0⟩ [" "] =
      .ok ([(" ", 1)],
        ⟨{ emptyDB with qpm := [⟨1, "", false⟩], nextId := 2 }, none, 0⟩) := rfl

/-- C5 amended: labels equal after trimming resolve to the same key and
at most one master row exists per canonical text afterwards; a label
that is the empty string is dropped by the sanitizing filter (and
resolves to no key when no whitespace-only sibling is supplied); but a
whitespace-only label survives the `if text` filter, is trimmed to the
empty string, creates a master row with empty text and resolves to its
key — it is not discarded as the original claim states. -/
theorem claim5_amended_label_trimming (db : DB) (c : Nat) (l : List String)
    (hwf : WFdb db) :
    get_or_create_quality_points ⟨db, none, c⟩ l =
      .ok (qpResolveMap db l, ⟨qpResolveDB db l, none, c⟩) ∧
    (∀ l1 l2, l1 ∈ l → l2 ∈ l → strip l1 = strip l2 →
      lookupA (qpResolveMap db l) l1 = lookupA (qpResolveMap db l) l2) ∧
    ((qpResolveDB db l).qpm.map QPRow.text).Nodup ∧
    (∀ s, s ∈ l → s ≠ "" → strip s = "" →
      (∃ k, lookupA (qpResolveMap db l) s = some k) ∧
      ∃ r ∈ (qpResolveDB db l).qpm, r.text = "") ∧
    ((∀ s ∈ l, strip s = "" → s = "") → lookupA (qpResolveMap db l) "" = none) := by
  obtain ⟨rows, h1, h2, h3⟩ := insertQPs_qpm db (qpNewTexts db l)
  have hdbq : (qpResolveDB db l).qpm = db.qpm ++ rows := h1
  refine ⟨qp_resolver_fuelNone db c l, ?_, ?_, ?_, ?_⟩
  · intro l1 l2 hl1 hl2 he
    rw [qpResolveMap, lookupA_buildQPReturn_mem l _ l1 hl1,
      lookupA_buildQPReturn_mem l _ l2 hl2, he]
  · rw [hdbq, List.map_append, List.nodup_append]
    refine ⟨hwf.2.2, ?_, ?_⟩
    · rw [h2, qpNewTexts]
      have hsan : (sanitize l).Nodup := by rw [sanitize]; exact List.nodup_dedup _
      exact hsan.filter _
    · intro a ha hb
      obtain ⟨ra, hra, hrat⟩ := List.mem_map.mp ha
      have hb' : a ∈ qpNewTexts db l := h2 ▸ hb
      have hfil := List.mem_filter.mp (by rw [qpNewTexts] at hb'; exact hb')
      have hnone : lookupA (selectQPMap db (sanitize l)) a = none :=
        Option.isNone_iff_eq_none.mp hfil.2
      have hsomef : (findQP db a).isSome := by
        apply List.find?_isSome.mpr
        exact ⟨ra, hra, by simpa using hrat⟩
      obtain ⟨rf, hrf⟩ := Option.isSome_iff_exists.mp hsomef
      have := lookupA_selectQPMap_some db (sanitize l) a rf hfil.1 hrf
      rw [hnone] at this
      cases this
  · intro s hs hne hstrip
    have hsan : ("" : String) ∈ sanitize l := by
      have := strip_mem_sanitize l s hs hne
      rwa [hstrip] at this
    obtain ⟨r, hr⟩ := qpResolveDB_findQP_isSome db l "" hsan
    constructor
    · refine ⟨r.qpId, ?_⟩
      rw [qpResolveMap, lookupA_buildQPReturn_mem l _ s hs, hstrip]
      exact lookupA_selectQPMap_some _ _ _ _ hsan hr
    · refine ⟨r, List.mem_of_find?_eq_some hr, ?_⟩
      have := List.find?_some hr
      simpa using this
  · intro hclean
    have hnotmem : ("" : String) ∉ sanitize l := by
      intro hmem
      rw [sanitize, List.mem_dedup] at hmem
      obtain ⟨x, hx, hxs⟩ := List.mem_map.mp hmem
      have hxf := List.mem_filter.mp hx
      have hxe : x ≠ "" := by simpa using hxf.2
      exact hxe (hclean x hxf.1 hxs)
    by_cases hmem : ("" : String) ∈ l
    · rw [qpResolveMap, lookupA_buildQPReturn_mem l _ "" hmem]
      have : strip "" = "" := rfl
      rw [this]
      exact lookupA_selectQPMap_not_mem _ _ _ hnotmem
    · exact lookupA_buildQPReturn_not_mem l _ "" hmem

/-- Witness for C5's amended statement: `"Tone"` and `" Tone "` get the
same key from one resolver run on an empty store. -/
theorem claim5_amended_label_trimming_witness :
    lookupA (qpResolveMap emptyDB ["Tone", " Tone "]) "Tone" =
      lookupA (qpResolveMap emptyDB ["Tone", " Tone "]) " Tone " :=
  (claim5_amended_label_trimming emptyDB 0 ["Tone", " Tone "] (by decide)).2.1
    "Tone" " Tone " (by decide) (by decide) (by decide)

/-- C2 fails as stated: for the one-item document whose label is
`" Tone "`, the resolver's returned mapping DOES hold a key for that
item's label (the mapping is keyed by the original, untrimmed label),
yet the child batch insert drops the item, because the comprehension
queries the mapping at the TRIMMED label `"Tone"`, which is not a key. -/
theorem claim2_counterexample :
    get_or_create_quality_points ⟨emptyDB, none, 0⟩ (collectQPs exDocPadded) =
      .ok ([(" Tone ", 1)],
        ⟨{ emptyDB with qpm := [⟨1, "Tone", false⟩], nextId := 2 }, none, 0⟩) ∧
    lookupA [(" Tone ", 1)] " Tone " = some 1 ∧
    evalParams 7 [(" Tone ", 1)] exDocPadded.detailed_evaluation = [] :=
  ⟨rfl, rfl, rfl⟩

/-- C2 amended: after a failure-free resolver run on a document's label
set, the returned mapping holds a (positive) key for EVERY original
label; the child filter shared by `evalParams` and `qpDetailParams`
keys on the Python-truthy lookup of the item's TRIMMED label, and that
lookup succeeds exactly when the trimmed label occurs verbatim among
the document's original labels — so an item is dropped if and only if
its trimmed spelling is not itself one of the supplied labels, not if
and only if its own label failed to resolve. -/
theorem claim2_amended_trimmed_child_filter (db : DB) (c : Nat) (doc : JsonDoc)
    (hwf : WFdb db) :
    get_or_create_quality_points ⟨db, none, c⟩ (collectQPs doc) =
      .ok (qpResolveMap db (collectQPs doc),
        ⟨qpResolveDB db (collectQPs doc), none, c⟩) ∧
    (∀ lbl ∈ collectQPs doc, ∃ k, 1 ≤ k ∧
      lookupA (qpResolveMap db (collectQPs doc)) lbl = some k) ∧
    (∀ lbl : Option String,
      qpTruthy (lookupA (qpResolveMap db (collectQPs doc)) (strip (lbl.getD ""))) = true ↔
        strip (lbl.getD "") ∈ collectQPs doc) := by
  refine ⟨qp_resolver_fuelNone db c (collectQPs doc), ?_, ?_⟩
  · intro lbl hl
    have hne := collectQPs_ne_empty doc lbl hl
    obtain ⟨r, hr⟩ := qpResolveDB_findQP_isSome db (collectQPs doc) (strip lbl)
      (strip_mem_sanitize _ lbl hl hne)
    refine ⟨r.qpId, qpResolveDB_findQP_pos db _ _ r hwf hr, ?_⟩
    rw [qpResolveMap, lookupA_buildQPReturn_mem _ _ lbl hl]
    exact lookupA_selectQPMap_some _ _ _ _ (strip_mem_sanitize _ lbl hl hne) hr
  · intro lbl
    constructor
    · intro htr
      by_contra hmem
      rw [qpResolveMap, lookupA_buildQPReturn_not_mem _ _ _ hmem] at htr
      simp [qpTruthy] at htr
    · intro hmem
      have hne := collectQPs_ne_empty doc _ hmem
      obtain ⟨r, hr⟩ := qpResolveDB_findQP_isSome db (collectQPs doc)
        (strip (strip (lbl.getD "")))
        (strip_mem_sanitize _ _ hmem hne)
      have hk := qpResolveDB_findQP_pos db _ _ r hwf hr
      rw [qpResolveMap, lookupA_buildQPReturn_mem _ _ _ hmem,
        lookupA_selectQPMap_some _ _ _ _ (strip_mem_sanitize _ _ hmem hne) hr]
      simp [qpTruthy]
      omega

/-- Witness for C2's amended statement: on the padded one-item
document, the trimmed label `"Tone"` is not an original label, so the
truthy filter rejects it even though `" Tone "` itself resolved. -/
theorem claim2_amended_trimmed_child_filter_witness :
    ¬ (qpTruthy (lookupA (qpResolveMap emptyDB (collectQPs exDocPadded))
        (strip ((some " Tone " : Option String).getD ""))) = true) := by
  intro h
  have := ((claim2_amended_trimmed_child_filter emptyDB 0 exDocPadded
    (by decide)).2.2 (some " Tone ")).mp h
  revert this
  decide

/-!
## Effect lemmas for the per-file transaction (any fuel)
-/

/-- The `tsOnly` is reflexive. -/
theorem tsOnly_refl (db : DB) (ts : Nat) : tsOnly db db ts :=
  ⟨fun _ hr => Or.inl hr, fun _ hr => Or.inl hr⟩

/-- The `tsOnly` composes along the transaction. -/
theorem tsOnly_trans (db0 db1 db2 : DB) (ts : Nat)
    (h1 : tsOnly db0 db1 ts) (h2 : tsOnly db1 db2 ts) : tsOnly db0 db2 ts := by
  constructor
  · intro r hr
    rcases h2.1 r hr with h | h
    · exact h1.1 r h
    · exact Or.inr h
  · intro r hr
    rcases h2.2 r hr with h | h
    · exact h1.2 r h
    · exact Or.inr h

/-- A fuel step never changes the store. -/
theorem useFuel_ok (t t' : Tx) (h : useFuel t = .ok t') : t'.db = t.db := by
  rw [useFuel] at h
  split at h
  · cases h; rfl
  · cases h
  · cases h; rfl

/-- A successful agent resolution leaves the analysis tables alone. -/
theorem agent_ok_effects (race : Option AgentRow) (t : Tx) (d : AgentDetails)
    (x : Option Nat) (t' : Tx) (h : get_or_create_agent race t d = .ok (x, t')) :
    t'.db.indAnalyses = t.db.indAnalyses ∧ t'.db.combined = t.db.combined := by
  rw [get_or_create_agent] at h
  split at h
  · cases h; exact ⟨rfl, rfl⟩
  · simp only [bind, Except.bind] at h
    split at h
    · cases h
    · rename_i t1 hu
      have ht1 := useFuel_ok t t1 hu
      split at h
      · cases h; rw [ht1]; exact ⟨rfl, rfl⟩
      · split at h
        · cases h
        · rename_i t2 hu2
          have ht2 := useFuel_ok _ t2 hu2
          split at h
          · cases h
          · cases h
            cases race <;> simp_all

/-- A successful quality-point resolution leaves the analysis tables
and the agents table alone. -/
theorem qp_ok_effects (t : Tx) (l : List String) (m : List (String × Nat)) (t' : Tx)
    (h : get_or_create_quality_points t l = .ok (m, t')) :
    t'.db.indAnalyses = t.db.indAnalyses ∧ t'.db.combined = t.db.combined ∧
    t'.db.agents = t.db.agents := by
  rw [get_or_create_quality_points] at h
  split at h
  · cases h; exact ⟨rfl, rfl, rfl⟩
  · simp only [bind, Except.bind] at h
    split at h
    · cases h
    · rename_i t1 hu
      have ht1 := useFuel_ok t t1 hu
      split at h
      · cases h; rw [ht1]; exact ⟨rfl, rfl, rfl⟩
      · split at h
        · cases h
        · rename_i t2 hu2
          have ht2 := useFuel_ok _ t2 hu2
          split at h
          · cases h
          · rename_i t3 hu3
            have ht3 := useFuel_ok _ t3 hu3
            cases h
            refine ⟨?_, ?_, ?_⟩
            · rw [ht3]
              rw [(insertQPs_other t2.db _).2.1, ht2, ht1]
            · rw [ht3]
              rw [(insertQPs_other t2.db _).2.2.2.1, ht2, ht1]
            · rw [ht3]
              rw [(insertQPs_other t2.db _).1, ht2, ht1]

/-- A successful coaching-focus loop leaves the analysis tables and the
agents table alone. -/
theorem focus_ok_effects (cid : Nat) (items : List CoachingFocusItem) :
    ∀ t t', insertFocusItems cid t items = .ok t' →
      t'.db.indAnalyses = t.db.indAnalyses ∧ t'.db.combined = t.db.combined ∧
      t'.db.agents = t.db.agents := by
  induction items with
  | nil =>
    intro t t' h
    rw [insertFocusItems] at h
    cases h
    exact ⟨rfl, rfl, rfl⟩
  | cons fi rest ih =>
    intro t t' h
    rw [insertFocusItems] at h
    split at h
    · exact ih t t' h
    · split at h
      · exact ih t t' h
      · simp only [bind, Except.bind] at h
        split at h
        · cases h
        · rename_i t1 hu
          have ht1 := useFuel_ok t t1 hu
          split at h
          · have := ih _ t' h
            rw [this.1, this.2.1, this.2.2] at *
            exact ⟨by rw [ht1], by rw [ht1], by rw [ht1]⟩
          · split at h
            · cases h
            · rename_i t2 hu2
              have ht2 := useFuel_ok _ t2 hu2
              have := ih _ t' h
              rw [this.1, this.2.1, this.2.2] at *
              rw [ht2, ht1]
              exact ⟨rfl, rfl, rfl⟩

/-- A successful individual import appends exactly one analysis row —
stamped with the batch timestamp — and touches neither the combined
table nor the agents table. -/
theorem ind_ok_effects (t : Tx) (j : JsonDoc) (fp : String) (aid : Nat)
    (qp : List (String × Nat)) (ts : Nat) (t' : Tx)
    (h : process_individual_json t j fp aid qp ts = .ok t') :
    (∃ row : IndRow, t'.db.indAnalyses = t.db.indAnalyses ++ [row] ∧
      row.processingDateTime = ts) ∧
    t'.db.combined = t.db.combined ∧ t'.db.agents = t.db.agents := by
  rw [process_individual_json] at h
  simp only [bind, Except.bind] at h
  split at h
  · cases h
  · rename_i t1 hu
    have ht1 := useFuel_ok t t1 hu
    split at h
    · cases h
      rw [ht1]
      exact ⟨⟨_, rfl, rfl⟩, rfl, rfl⟩
    · split at h
      · cases h
      · rename_i t2 hu2
        have ht2 := useFuel_ok _ t2 hu2
        cases h
        rw [ht2, ht1]
        exact ⟨⟨_, rfl, rfl⟩, rfl, rfl⟩

/-- A successful strengths insert touches only the strengths table. -/
theorem strengths_ok_effects (cid : Nat) (sl : List String) (t t' : Tx)
    (h : insertStrengths cid sl t = .ok t') :
    t'.db.indAnalyses = t.db.indAnalyses ∧ t'.db.combined = t.db.combined ∧
    t'.db.agents = t.db.agents := by
  rw [insertStrengths] at h
  simp only [bind, Except.bind, pure, Except.pure] at h
  split at h
  · cases h; exact ⟨rfl, rfl, rfl⟩
  · split at h
    · cases h
    · rename_i t1 hu
      have ht1 := useFuel_ok t t1 hu
      cases h
      rw [ht1]
      exact ⟨rfl, rfl, rfl⟩

/-- A successful development-areas insert touches only its table. -/
theorem devareas_ok_effects (cid : Nat) (dl : List String) (t t' : Tx)
    (h : insertDevAreas cid dl t = .ok t') :
    t'.db.indAnalyses = t.db.indAnalyses ∧ t'.db.combined = t.db.combined ∧
    t'.db.agents = t.db.agents := by
  rw [insertDevAreas] at h
  simp only [bind, Except.bind, pure, Except.pure] at h
  split at h
  · cases h; exact ⟨rfl, rfl, rfl⟩
  · split at h
    · cases h
    · rename_i t1 hu
      have ht1 := useFuel_ok t t1 hu
      cases h
      rw [ht1]
      exact ⟨rfl, rfl, rfl⟩

/-- A successful quality-point-details insert touches only its table. -/
theorem qpdetails_ok_effects (qp_params : List QPDetailRow) (t t' : Tx)
    (h : insertQPDetails qp_params t = .ok t') :
    t'.db.indAnalyses = t.db.indAnalyses ∧ t'.db.combined = t.db.combined ∧
    t'.db.agents = t.db.agents := by
  rw [insertQPDetails] at h
  simp only [bind, Except.bind] at h
  split at h
  · cases h; exact ⟨rfl, rfl, rfl⟩
  · split at h
    · cases h
    · rename_i t1 hu
      have ht1 := useFuel_ok t t1 hu
      cases h
      rw [ht1]
      exact ⟨rfl, rfl, rfl⟩

/-- A successful combined import appends exactly one combined-analysis
row — stamped with the batch timestamp — and touches neither the
individual table nor the agents table. -/
theorem comb_ok_effects (t : Tx) (j : JsonDoc) (aid : Nat)
    (qp : List (String × Nat)) (ts : Nat) (t' : Tx)
    (h : process_combined_json t j aid qp ts = .ok t') :
    (∃ row : CombRow, t'.db.combined = t.db.combined ++ [row] ∧
      row.processingDateTime = ts) ∧
    t'.db.indAnalyses = t.db.indAnalyses ∧ t'.db.agents = t.db.agents := by
  rw [process_combined_json] at h
  simp only [bind, Except.bind] at h
  split at h
  · cases h
  · rename_i t1 hu1
    have ht1 := useFuel_ok t t1 hu1
    split at h
    · cases h
    · rename_i t2 h2
      have e2 := strengths_ok_effects _ _ _ _ h2
      split at h
      · cases h
      · rename_i t3 h3
        have e3 := devareas_ok_effects _ _ _ _ h3
        split at h
        · cases h
        · rename_i t4 h4
          have e4 := focus_ok_effects _ _ _ _ h4
          have e5 := qpdetails_ok_effects _ _ _ h
          refine ⟨⟨⟨t1.db.nextId, aid,
              (j.report_header.getD {}).analysis_period_note,
              (j.report_header.getD {}).number_of_reports_provided,
              (j.report_header.getD {}).number_of_reports_successfully_analyzed,
              (j.overall_performance_snapshot.getD {}).total_calls_contributing_to_aggregates,
              ((j.overall_performance_snapshot.getD {}).aggregate_findings_counts.getD {}).positive_count,
              ((j.overall_performance_snapshot.getD {}).aggregate_findings_counts.getD {}).negative_count,
              ((j.overall_performance_snapshot.getD {}).aggregate_findings_counts.getD {}).neutral_count,
              ts⟩, ?_, rfl⟩, ?_, ?_⟩
          · rw [e5.2.1, e4.2.1, e3.2.1, e2.2.1]
            show t1.db.combined ++ _ = t.db.combined ++ _
            rw [ht1]
          · rw [e5.1, e4.1, e3.1, e2.1]
            show t1.db.indAnalyses = t.db.indAnalyses
            rw [ht1]
          · rw [e5.2.2, e4.2.2, e3.2.2, e2.2.2]
            show t1.db.agents = t.db.agents
            rw [ht1]

/-- A successful import transaction only adds analysis rows stamped
with the batch timestamp. -/
theorem attempt_ok_tsOnly (race : Option AgentRow) (fuel : Option Nat) (ts : Nat)
    (db : DB) (d : AgentDetails) (fp : String) (j : JsonDoc) (t' : Tx)
    (h : attemptImport race fuel ts db d fp j = .ok t') : tsOnly db t'.db ts := by
  rw [attemptImport] at h
  simp only [bind, Except.bind] at h
  split at h
  · cases h
  · rename_i p hpa
    obtain ⟨aidOpt, t1⟩ := p
    have ea := agent_ok_effects _ _ _ _ _ hpa
    split at h
    · cases h
    · rename_i aid
      split at h
      · cases h
      · split at h
        · cases h
        · rename_i q hq
          obtain ⟨qpm, t2⟩ := q
          have eq2 := qp_ok_effects _ _ _ _ hq
          split at h
          · obtain ⟨⟨row, hrow, hts⟩, hind, _⟩ := comb_ok_effects _ _ _ _ _ _ h
            constructor
            · intro r hr
              rw [hind, eq2.1, ea.1] at hr
              exact Or.inl hr
            · intro r hr
              rw [hrow, eq2.2.1, ea.2] at hr
              rcases List.mem_append.mp hr with hr | hr
              · exact Or.inl hr
              · rw [List.mem_singleton.mp hr]
                exact Or.inr hts
          · obtain ⟨⟨row, hrow, hts⟩, hcomb, _⟩ := ind_ok_effects _ _ _ _ _ _ _ h
            constructor
            · intro r hr
              rw [hrow, eq2.1, ea.1] at hr
              rcases List.mem_append.mp hr with hr | hr
              · exact Or.inl hr
              · rw [List.mem_singleton.mp hr]
                exact Or.inr hts
            · intro r hr
              rw [hcomb, eq2.2.1, ea.2] at hr
              exact Or.inl hr

/-- One loop iteration only adds analysis rows stamped with the batch
timestamp. -/
theorem processOneFile_tsOnly (ext_map : List (String × AgentDetails))
    (race : Option AgentRow) (fuel : Option Nat) (ts : Nat) (db : DB) (f : FsFile) :
    tsOnly db (processOneFile ext_map race fuel ts db f).1 ts := by
  cases hx : extract_extension_from_path f.path with
  | none =>
    simp only [processOneFile, hx]
    exact tsOnly_refl db ts
  | some ext =>
    cases hp : f.parse with
    | none =>
      simp only [processOneFile, hx, hp]
      exact tsOnly_refl db ts
    | some json_data =>
      cases ha : attemptImport race fuel ts db ((lookupDetails ext_map ext).getD
          ⟨"Un-rostered Agent - " ++ ext, none, ext⟩) f.path json_data with
      | ok t =>
        simp only [processOneFile, hx, hp, ha]
        exact attempt_ok_tsOnly _ _ _ _ _ _ _ _ ha
      | error t =>
        simp only [processOneFile, hx, hp, ha]
        exact tsOnly_refl db ts

/-- C7: every individual or combined analysis row present after a batch
run and not inherited from the prior store carries the run's single
processing timestamp `ts` — the one value computed before the loop and
passed unchanged to every document's import. -/
theorem claim7_shared_timestamp (ext_map : List (String × AgentDetails))
    (race : Option AgentRow) (fuel : Option Nat) (ts : Nat) (db : DB)
    (files : List FsFile) :
    (∀ r ∈ (processFiles ext_map race fuel ts db files).1.indAnalyses,
      r ∈ db.indAnalyses ∨ r.processingDateTime = ts) ∧
    (∀ r ∈ (processFiles ext_map race fuel ts db files).1.combined,
      r ∈ db.combined ∨ r.processingDateTime = ts) := by
  induction files generalizing db with
  | nil => exact tsOnly_refl db ts
  | cons f rest ih =>
    show tsOnly db (processFiles ext_map race fuel ts db (f :: rest)).1 ts
    simp only [processFiles]
    exact tsOnly_trans _ _ _ _ (processOneFile_tsOnly ext_map race fuel ts db f)
      (ih (processOneFile ext_map race fuel ts db f).1)

/-- Witness for C7: the one row imported from a concrete one-file batch
carries the run's timestamp 42. -/
theorem claim7_shared_timestamp_witness :
    (⟨3, 1, none, "call1.wav", none, none, none, none, none, none, none, none, none,
      none, 42⟩ : IndRow) ∈ emptyDB.indAnalyses ∨
    (⟨3, 1, none, "call1.wav", none, none, none, none, none, none, none, none, none,
      none, 42⟩ : IndRow).processingDateTime = 42 :=
  (claim7_shared_timestamp [] none none 42 emptyDB [exFile1]).1
    ⟨3, 1, none, "call1.wav", none, none, none, none, none, none, none, none, none,
      none, 42⟩ (by decide)

/-!
## Failure-free execution of the import stages
-/

/-- With no injected failure, creating a missing agent issues the new
key and appends exactly the synthesized row. -/
theorem agent_create_fuelNone (db : DB) (c : Nat) (d : AgentDetails)
    (hn : d.full_name ≠ "") (he : d.extension ≠ "")
    (hf : findAgent db d.extension = none) :
    get_or_create_agent none ⟨db, none, c⟩ d =
      .ok (some db.nextId,
        ⟨{ db with agents := db.agents ++ [⟨db.nextId, d.full_name, d.email, d.extension⟩], nextId := db.nextId + 1 }, none, c + 1⟩) := by
  have hany : db.agents.any (fun a => a.extension = d.extension) = false := by
    rw [List.any_eq_false]
    intro a ha
    have := List.find?_eq_none.mp hf a ha
    simpa using this
  simp [get_or_create_agent, hn, he, useFuel, bind, Except.bind, hf, hany]

/-- With no injected failure, the strengths insert realizes its pure
effect. -/
theorem insertStrengths_fuelNone (cid : Nat) (sl : List String) (db : DB) (c : Nat) :
    insertStrengths cid sl ⟨db, none, c⟩ = .ok ⟨strengthsPure cid sl db, none, c⟩ := by
  by_cases h : sl.isEmpty <;>
    simp [insertStrengths, strengthsPure, h, useFuel, bind, Except.bind, pure, Except.pure]

/-- With no injected failure, the development-areas insert realizes its
pure effect. -/
theorem insertDevAreas_fuelNone (cid : Nat) (dl : List String) (db : DB) (c : Nat) :
    insertDevAreas cid dl ⟨db, none, c⟩ = .ok ⟨devAreasPure cid dl db, none, c⟩ := by
  by_cases h : dl.isEmpty <;>
    simp [insertDevAreas, devAreasPure, h, useFuel, bind, Except.bind, pure, Except.pure]

/-- With no injected failure, the quality-point-details insert realizes
its pure effect. -/
theorem insertQPDetails_fuelNone (qps : List QPDetailRow) (db : DB) (c : Nat) :
    insertQPDetails qps ⟨db, none, c⟩ = .ok ⟨qpDetailsPure qps db, none, c⟩ := by
  by_cases h : qps.isEmpty <;>
    simp [insertQPDetails, qpDetailsPure, h, useFuel, bind, Except.bind]

/-- With no injected failure, the coaching-focus loop realizes its pure
effect. -/
theorem insertFocusItems_fuelNone (cid : Nat) (items : List CoachingFocusItem) :
    ∀ (db : DB) (c : Nat), insertFocusItems cid ⟨db, none, c⟩ items =
      .ok ⟨focusPure cid db items, none, c⟩ := by
  induction items with
  | nil => intro db c; rfl
  | cons fi rest ih =>
    intro db c
    cases hfa : fi.area with
    | none =>
      simp only [insertFocusItems, focusPure, hfa]
      exact ih db c
    | some area_text =>
      by_cases hae : area_text = ""
      · simp only [insertFocusItems, focusPure, hfa, if_pos hae]
        exact ih db c
      · by_cases hsa : fi.specific_actions.isEmpty
        · simp only [insertFocusItems, focusPure, hfa, if_neg hae, useFuel, bind,
            Except.bind, if_pos hsa]
          exact ih _ c
        · simp only [insertFocusItems, focusPure, hfa, if_neg hae, useFuel, bind,
            Except.bind, if_neg hsa]
          exact ih _ c

/-- With no injected failure, the individual import realizes its pure
effect. -/
theorem process_individual_fuelNone (db : DB) (c : Nat) (j : JsonDoc) (fp : String)
    (aid : Nat) (qp : List (String × Nat)) (ts : Nat) :
    process_individual_json ⟨db, none, c⟩ j fp aid qp ts =
      .ok ⟨indPure db j fp aid qp ts, none, c⟩ := by
  by_cases h : (evalParams db.nextId qp j.detailed_evaluation).isEmpty <;>
    simp [process_individual_json, indPure, h, useFuel, bind, Except.bind]

/-- With no injected failure, the combined import realizes its pure
effect. -/
theorem process_combined_fuelNone (db : DB) (c : Nat) (j : JsonDoc) (aid : Nat)
    (qp : List (String × Nat)) (ts : Nat) :
    process_combined_json ⟨db, none, c⟩ j aid qp ts =
      .ok ⟨combPure db j aid qp ts, none, c⟩ := by
  simp only [process_combined_json, combPure, bind, Except.bind, useFuel,
    insertStrengths_fuelNone, insertDevAreas_fuelNone, insertFocusItems_fuelNone,
    insertQPDetails_fuelNone]

/-- The pure stage effects never touch the agents table. -/
theorem strengthsPure_agents (cid : Nat) (sl : List String) (db : DB) :
    (strengthsPure cid sl db).agents = db.agents := by
  rw [strengthsPure]; split <;> rfl

/-- The pure development-areas effect never touches the agents table. -/
theorem devAreasPure_agents (cid : Nat) (dl : List String) (db : DB) :
    (devAreasPure cid dl db).agents = db.agents := by
  rw [devAreasPure]; split <;> rfl

/-- The pure details effect never touches the agents table. -/
theorem qpDetailsPure_agents (qps : List QPDetailRow) (db : DB) :
    (qpDetailsPure qps db).agents = db.agents := by
  rw [qpDetailsPure]; split <;> rfl

/-- The pure coaching-focus effect never touches the agents table. -/
theorem focusPure_agents (cid : Nat) (items : List CoachingFocusItem) :
    ∀ db : DB, (focusPure cid db items).agents = db.agents := by
  induction items with
  | nil => intro db; rfl
  | cons fi rest ih =>
    intro db
    cases hfa : fi.area with
    | none =>
      simp only [focusPure, hfa]
      exact ih db
    | some area_text =>
      by_cases hae : area_text = ""
      · simp only [focusPure, hfa, if_pos hae]
        exact ih db
      · by_cases hsa : fi.specific_actions.isEmpty
        · simp only [focusPure, hfa, if_neg hae, if_pos hsa]
          rw [ih _]
        · simp only [focusPure, hfa, if_neg hae, if_neg hsa]
          rw [ih _]

/-- The pure individual-import effect never touches the agents table. -/
theorem indPure_agents (db : DB) (j : JsonDoc) (fp : String) (aid : Nat)
    (qp : List (String × Nat)) (ts : Nat) :
    (indPure db j fp aid qp ts).agents = db.agents := by
  rw [indPure]
  split <;> rfl

/-- The pure combined-import effect never touches the agents table. -/
theorem combPure_agents (db : DB) (j : JsonDoc) (aid : Nat)
    (qp : List (String × Nat)) (ts : Nat) :
    (combPure db j aid qp ts).agents = db.agents := by
  simp only [combPure]
  rw [qpDetailsPure_agents, focusPure_agents, devAreasPure_agents, strengthsPure_agents]

/-- A resolver run never touches the agents table. -/
theorem qpResolveDB_agents (db : DB) (l : List String) :
    (qpResolveDB db l).agents = db.agents :=
  (insertQPs_other db (qpNewTexts db l)).1

/-- With no injected failure and no race, an import whose agent is
missing from the store succeeds and the synthesized agent row is in the
final store. -/
theorem attempt_fuelNone_ok (ts : Nat) (db : DB) (d : AgentDetails) (fp : String)
    (j : JsonDoc) (hn : d.full_name ≠ "") (he : d.extension ≠ "")
    (hz : ¬ db.nextId = 0) (hf : findAgent db d.extension = none) :
    ∃ t', attemptImport none none ts db d fp j = .ok t' ∧
      (⟨db.nextId, d.full_name, d.email, d.extension⟩ : AgentRow) ∈ t'.db.agents := by
  simp only [attemptImport, bind, Except.bind,
    agent_create_fuelNone db 0 d hn he hf, if_neg hz,
    qp_resolver_fuelNone, process_individual_fuelNone, process_combined_fuelNone]
  by_cases hc : infixS COMBINED_REPORT_FILENAME (basename fp) = true
  · rw [if_pos hc]
    refine ⟨_, rfl, ?_⟩
    show _ ∈ (combPure _ _ _ _ _).agents
    rw [combPure_agents, qpResolveDB_agents]
    simp
  · rw [if_neg hc]
    refine ⟨_, rfl, ?_⟩
    show _ ∈ (indPure _ _ _ _ _ _).agents
    rw [indPure_agents, qpResolveDB_agents]
    simp

/-- C10: a document whose extracted extension code is absent from the
parsed agent reference data is imported with synthesized details — the
display name `"Un-rostered Agent - <extension>"` and a null contact
address — and the run creates that Agent row and stores the document
instead of failing it. -/
theorem claim10_unrostered_agent (ext_map : List (String × AgentDetails)) (ts : Nat)
    (db : DB) (f : FsFile) (ext : String) (json_data : JsonDoc)
    (hx : extract_extension_from_path f.path = some ext)
    (hm : lookupDetails ext_map ext = none)
    (hp : f.parse = some json_data)
    (hf : findAgent db ext = none)
    (hpos : 1 ≤ db.nextId) :
    (processOneFile ext_map none none ts db f).2.1 = FileState.stored ∧
    (⟨db.nextId, "Un-rostered Agent - " ++ ext, none, ext⟩ : AgentRow) ∈
      (processOneFile ext_map none none ts db f).1.agents := by
  obtain ⟨t', hA, hrow⟩ := attempt_fuelNone_ok ts db
    ⟨"Un-rostered Agent - " ++ ext, none, ext⟩ f.path json_data
    (unrostered_name_ne_empty ext) (extract_extension_ne_empty f.path ext hx)
    (by omega) hf
  constructor
  · simp [processOneFile, hx, hm, hp, hA]
  · simp only [processOneFile, hx, hm, hp, Option.getD_none, hA]
    exact hrow

/-- Witness for C10: on an empty store and an empty roster, the file
under `1001` is stored and the un-rostered Agent row exists. -/
theorem claim10_unrostered_agent_witness :
    (processOneFile [] none none 42 emptyDB exFile1).2.1 = FileState.stored ∧
    (⟨1, "Un-rostered Agent - 1001", none, "1001"⟩ : AgentRow) ∈
      (processOneFile [] none none 42 emptyDB exFile1).1.agents :=
  claim10_unrostered_agent [] 42 emptyDB exFile1 "1001" exDoc1 rfl rfl rfl rfl
    (by decide)

end Importer
